import Mathlib

/-!
# gobounce: throttle and debounce control actors

A shallow embedding of `throttle.go` and `debounce.go`.

Each wrapper starts one goroutine that owns `lastInvoked`, `invokedCount` and the
timer(s) and loops over a `select`.  One iteration of that loop is modelled by a
`step` function: it takes the state, the clock reading `now` of the iteration and the
`select` case that was taken, and returns the new state together with the number of
`go f()` statements executed (the callback dispatches of the iteration).

Modelling conventions:
* time is an `Int` (nanoseconds of the monotonic clock); `time.Time` is
  `Option Int`, the zero `time.Time` being `none`;
* `invokedCount` is a Go `uint64`: a `Nat` incremented modulo `2 ^ 64`;
* a `time.Timer` is represented by its pending expiry (`some deadline`), `none` when
  it has been received or stopped; `NewTimer d` and `Reset d` at time `now` arm it
  for `now + d`, `Reset` replacing any expiry not yet received; its channel can be
  received only once the deadline is reached;
* the clock is read once per iteration: `time.Since(lastInvoked)` and `time.Now()` of
  the trigger case see the same `now`;
* a `select` case whose channel is not ready cannot be taken: `step` leaves the
  state alone for it; after the goroutine has returned no case is ever taken.
-/

namespace Gobounce

/-- Number of values of a Go `uint64`. -/
def uint64Size : Nat := 2 ^ 64

/-- The zero-argument `time.Time` test used by the trigger case:
`!lastInvoked.IsZero() && time.Since(lastInvoked) < wait`. -/
def insideWindow (lastInvoked : Option Int) (now wait : Int) : Bool :=
  match lastInvoked with
  | none => false
  | some t => decide (now - t < wait)

/-- A timer channel is ready at `now` when the timer is armed and its deadline reached. -/
def timerReady (timer : Option Int) (now : Int) : Bool :=
  match timer with
  | none => false
  | some d => decide (d ≤ now)

/-! ## Throttle -/

/-- The fields `Leading` and `Trailing` of `ThrottleOptions` (`Ctx` is represented by
the `done` event). -/
structure ThrottleOptions where
  Leading : Bool
  Trailing : Bool
  deriving DecidableEq, Repr

/-- `NewThrottleOptions`: Trailing is true, Leading is false. -/
def NewThrottleOptions : ThrottleOptions := ⟨false, true⟩

/-- The `if options == nil` defaulting at the head of `Throttle`. -/
def throttleOptions : Option ThrottleOptions → ThrottleOptions
  | none => NewThrottleOptions
  | some o => o

/-- The cases of the `select` in the throttle goroutine. -/
inductive ThrottleEvent where
  | done
  | invoke
  | timer
  deriving DecidableEq, Repr

/-- The variables captured by the throttle goroutine. `running` is false once the
goroutine has returned. -/
structure ThrottleState where
  lastInvoked : Option Int
  invokedCount : Nat
  timer : Option Int
  running : Bool
  deriving DecidableEq, Repr

namespace Throttle

/-- State right after `Throttle(f, wait, options)` called at time `t0`. -/
def init (wait t0 : Int) : ThrottleState :=
  ⟨none, 0, some (t0 + wait), true⟩

/-- `case <-options.Ctx.Done()`. -/
def onDone (s : ThrottleState) : ThrottleState × Nat :=
  (⟨s.lastInvoked, s.invokedCount, none, false⟩, if s.invokedCount > 0 then 1 else 0)

/-- `case <-invoke`. -/
def onInvoke (o : ThrottleOptions) (wait : Int) (s : ThrottleState) (now : Int) :
    ThrottleState × Nat :=
  let c := (s.invokedCount + 1) % uint64Size
  if insideWindow s.lastInvoked now wait then
    (⟨s.lastInvoked, c, s.timer, s.running⟩, 0)
  else
    (⟨some now, c, s.timer, s.running⟩, if o.Leading then 1 else 0)

/-- `case <-timer.C`. -/
def onTimer (o : ThrottleOptions) (wait : Int) (s : ThrottleState) (now : Int) :
    ThrottleState × Nat :=
  let t := some (now + wait)
  if s.invokedCount = 0 then
    (⟨s.lastInvoked, s.invokedCount, t, s.running⟩, 0)
  else if !o.Trailing then
    (⟨s.lastInvoked, 0, t, s.running⟩, 0)
  else if o.Leading then
    if s.invokedCount > 1 then
      (⟨s.lastInvoked, 0, t, s.running⟩, 1)
    else
      (⟨s.lastInvoked, s.invokedCount, t, s.running⟩, 0)
  else
    (⟨s.lastInvoked, 0, t, s.running⟩, 1)

/-- One iteration of the `for { select { ... } }` loop. -/
def step (o : ThrottleOptions) (wait : Int) (s : ThrottleState) (now : Int)
    (e : ThrottleEvent) : ThrottleState × Nat :=
  if s.running then
    match e with
    | .done => onDone s
    | .invoke => onInvoke o wait s now
    | .timer => if timerReady s.timer now then onTimer o wait s now else (s, 0)
  else
    (s, 0)

/-- State after a sequence of loop iterations. -/
def exec (o : ThrottleOptions) (wait : Int) :
    ThrottleState → List (Int × ThrottleEvent) → ThrottleState
  | s, [] => s
  | s, (now, e) :: es => exec o wait (step o wait s now e).1 es

/-- Times of the callback dispatches of a sequence of loop iterations, in order. -/
def log (o : ThrottleOptions) (wait : Int) :
    ThrottleState → List (Int × ThrottleEvent) → List Int
  | _, [] => []
  | s, (now, e) :: es =>
    List.replicate (step o wait s now e).2 now ++ log o wait (step o wait s now e).1 es

/-- A burst of calls of the `throttled` closure accepted at the times `ts`. -/
def triggers (ts : List Int) : List (Int × ThrottleEvent) :=
  ts.map (fun t => (t, ThrottleEvent.invoke))

/-- Number of triggers accepted since the last callback dispatch, starting from `g`
(a ghost counter: it is not a variable of the program). -/
def pending (o : ThrottleOptions) (wait : Int) :
    ThrottleState → Nat → List (Int × ThrottleEvent) → Nat
  | _, g, [] => g
  | s, g, (now, e) :: es =>
    pending o wait (step o wait s now e).1
      (if 0 < (step o wait s now e).2 then 0
        else if e = ThrottleEvent.invoke ∧ s.running = true then g + 1 else g) es

/-- Number of triggers accepted in a sequence of loop iterations: the `invoke`
iterations taken while the goroutine is running (a ghost counter). -/
def accepted (o : ThrottleOptions) (wait : Int) :
    ThrottleState → List (Int × ThrottleEvent) → Nat
  | _, [] => 0
  | s, (now, e) :: es =>
    (if e = ThrottleEvent.invoke ∧ s.running = true then 1 else 0)
      + accepted o wait (step o wait s now e).1 es

/-- Times of the callback dispatches made by trigger iterations (the leading-edge
dispatches) of a sequence of loop iterations, in order. -/
def leadingLog (o : ThrottleOptions) (wait : Int) :
    ThrottleState → List (Int × ThrottleEvent) → List Int
  | _, [] => []
  | s, (now, e) :: es =>
    (if e = ThrottleEvent.invoke then List.replicate (step o wait s now e).2 now else [])
      ++ leadingLog o wait (step o wait s now e).1 es

/-- Continuous triggering: for each element `r` of the list a round made of the triggers
accepted at the times `r` followed by the heartbeat, received at its deadline; the first
deadline is `d` and the heartbeat fires every `wait`. -/
def rounds (wait d : Int) : List (List Int) → List (Int × ThrottleEvent)
  | [] => []
  | r :: rs => triggers r ++ (d, ThrottleEvent.timer) :: rounds wait (d + wait) rs

end Throttle

/-! ## Debounce -/

/-- `DebounceOptions`: the embedded `ThrottleOptions` and `MaxWait`. -/
structure DebounceOptions extends ThrottleOptions where
  MaxWait : Int
  deriving DecidableEq, Repr

/-- `math.MaxInt64`. -/
def maxInt64 : Int := 2 ^ 63 - 1

/-- `NewDebounceOptions`. -/
def NewDebounceOptions : DebounceOptions := ⟨⟨false, true⟩, maxInt64⟩

/-- The `if options == nil` defaulting at the head of `Debounce`. -/
def debounceOptions : Option DebounceOptions → DebounceOptions
  | none => NewDebounceOptions
  | some o => o

/-- The cases of the `select` in the debounce goroutine. -/
inductive DebounceEvent where
  | done
  | maxTimer
  | invoke
  | timer
  deriving DecidableEq, Repr

/-- The variables captured by the debounce goroutine. -/
structure DebounceState where
  lastInvoked : Option Int
  invokedCount : Nat
  timer : Option Int
  maxTimer : Option Int
  running : Bool
  deriving DecidableEq, Repr

namespace Debounce

/-- State right after `Debounce(f, wait, options)` called at time `t0`. -/
def init (o : DebounceOptions) (wait t0 : Int) : DebounceState :=
  ⟨none, 0, some (t0 + wait), some (t0 + o.MaxWait), true⟩

/-- `case <-options.Ctx.Done()`. -/
def onDone (s : DebounceState) : DebounceState × Nat :=
  (⟨s.lastInvoked, s.invokedCount, none, none, false⟩,
    if s.invokedCount > 0 then 1 else 0)

/-- `case <-maxTimer.C`. -/
def onMaxTimer (o : DebounceOptions) (s : DebounceState) (now : Int) :
    DebounceState × Nat :=
  (⟨s.lastInvoked, s.invokedCount, s.timer, some (now + o.MaxWait), s.running⟩,
    if s.invokedCount > 0 then 1 else 0)

/-- `case <-invoke`. -/
def onInvoke (o : DebounceOptions) (wait : Int) (s : DebounceState) (now : Int) :
    DebounceState × Nat :=
  let c := (s.invokedCount + 1) % uint64Size
  let t := some (now + wait)
  if insideWindow s.lastInvoked now wait then
    (⟨s.lastInvoked, c, t, s.maxTimer, s.running⟩, 0)
  else if o.Leading then
    (⟨some now, c, t, some (now + o.MaxWait), s.running⟩, 1)
  else
    (⟨some now, c, t, s.maxTimer, s.running⟩, 0)

/-- `case <-timer.C`. -/
def onTimer (o : DebounceOptions) (s : DebounceState) : DebounceState × Nat :=
  if !o.Trailing then
    (⟨s.lastInvoked, 0, none, s.maxTimer, s.running⟩, 0)
  else if o.Leading then
    if s.invokedCount > 1 then
      (⟨s.lastInvoked, s.invokedCount, none, s.maxTimer, s.running⟩, 1)
    else
      (⟨s.lastInvoked, s.invokedCount, none, s.maxTimer, s.running⟩, 0)
  else
    (⟨s.lastInvoked, s.invokedCount, none, s.maxTimer, s.running⟩,
      if s.invokedCount > 0 then 1 else 0)

/-- One iteration of the `for { select { ... } }` loop. -/
def step (o : DebounceOptions) (wait : Int) (s : DebounceState) (now : Int)
    (e : DebounceEvent) : DebounceState × Nat :=
  if s.running then
    match e with
    | .done => onDone s
    | .maxTimer => if timerReady s.maxTimer now then onMaxTimer o s now else (s, 0)
    | .invoke => onInvoke o wait s now
    | .timer => if timerReady s.timer now then onTimer o s else (s, 0)
  else
    (s, 0)

/-- State after a sequence of loop iterations. -/
def exec (o : DebounceOptions) (wait : Int) :
    DebounceState → List (Int × DebounceEvent) → DebounceState
  | s, [] => s
  | s, (now, e) :: es => exec o wait (step o wait s now e).1 es

/-- Times of the callback dispatches of a sequence of loop iterations, in order. -/
def log (o : DebounceOptions) (wait : Int) :
    DebounceState → List (Int × DebounceEvent) → List Int
  | _, [] => []
  | s, (now, e) :: es =>
    List.replicate (step o wait s now e).2 now ++ log o wait (step o wait s now e).1 es

/-- A burst of calls of the `debounced` closure accepted at the times `ts`. -/
def triggers (ts : List Int) : List (Int × DebounceEvent) :=
  ts.map (fun t => (t, DebounceEvent.invoke))

/-- Expiries of the quiet-period timer received at the times `ts`. -/
def quietEvents (ts : List Int) : List (Int × DebounceEvent) :=
  ts.map (fun t => (t, DebounceEvent.timer))

/-- Number of `invoke` iterations in a sequence of loop iterations. -/
def triggerCount (es : List (Int × DebounceEvent)) : Nat :=
  es.countP (fun p => decide (p.2 = DebounceEvent.invoke))

/-- Time of the latest `invoke` iteration, `lt` if there is none. -/
def lastTrigger (lt : Option Int) (es : List (Int × DebounceEvent)) : Option Int :=
  es.foldl (fun acc p => if p.2 = DebounceEvent.invoke then some p.1 else acc) lt

/-- Number of triggers accepted since the last callback dispatch, starting from `g`
(a ghost counter: it is not a variable of the program). -/
def pending (o : DebounceOptions) (wait : Int) :
    DebounceState → Nat → List (Int × DebounceEvent) → Nat
  | _, g, [] => g
  | s, g, (now, e) :: es =>
    pending o wait (step o wait s now e).1
      (if 0 < (step o wait s now e).2 then 0
        else if e = DebounceEvent.invoke ∧ s.running = true then g + 1 else g) es

/-- Number of triggers accepted in a sequence of loop iterations: the `invoke`
iterations taken while the goroutine is running (a ghost counter). -/
def accepted (o : DebounceOptions) (wait : Int) :
    DebounceState → List (Int × DebounceEvent) → Nat
  | _, [] => 0
  | s, (now, e) :: es =>
    (if e = DebounceEvent.invoke ∧ s.running = true then 1 else 0)
      + accepted o wait (step o wait s now e).1 es

/-- Time since which an invocation is owed, starting from `acc` (a ghost value): the time
of the latest callback dispatch or, as long as nothing has been dispatched, of the first
accepted trigger. -/
def owedFrom (o : DebounceOptions) (wait : Int) :
    DebounceState → Option Int → List (Int × DebounceEvent) → Option Int
  | _, acc, [] => acc
  | s, acc, (now, e) :: es =>
    owedFrom o wait (step o wait s now e).1
      (if 0 < (step o wait s now e).2 then some now
        else if e = DebounceEvent.invoke ∧ s.running = true ∧ acc = none then some now
        else acc) es

end Debounce

/-! ## Construction and the returned closures -/

/-- What `Throttle` hands to the goroutine it starts: whether the captured callback `f`
is nil, the options in use and the state of the loop. -/
structure ThrottleActor where
  fNil : Bool
  options : ThrottleOptions
  state : ThrottleState
  deriving DecidableEq, Repr

/-- What `Debounce` hands to the goroutine it starts. -/
structure DebounceActor where
  fNil : Bool
  options : DebounceOptions
  state : DebounceState
  deriving DecidableEq, Repr

/-- The statements `go f()` of a loop iteration that dispatches `n` times: with a nil `f`
the first of them is a fatal run-time error (`none`); otherwise `n` callbacks are
started. -/
def goF (fNil : Bool) (n : Nat) : Option Nat :=
  if fNil = true ∧ 0 < n then none else some n

/-- The call `Throttle(f, wait, options)` made at time `t0`, as far as construction
goes.  `fNil` says whether `f` is nil and `ctxNil` whether a non-nil `options` carries a
nil `Ctx` (a nil `options` is replaced by `NewThrottleOptions()`, whose `Ctx` is
`context.Background()`).  The body tests neither `f` nor `wait`: `f` is only captured by
the goroutine and `wait` only arms the timer.  `none` stands for the only way the call
can fail, the panic of `context.WithCancel` on a nil parent. -/
def Throttle (fNil : Bool) (wait : Int) (options : Option ThrottleOptions) (ctxNil : Bool)
    (t0 : Int) : Option ThrottleActor :=
  match options with
  | none => some ⟨fNil, NewThrottleOptions, Throttle.init wait t0⟩
  | some o => if ctxNil then none else some ⟨fNil, o, Throttle.init wait t0⟩

/-- The call `Debounce(f, wait, options)` made at time `t0`, as far as construction goes;
see `Throttle`.  The body compares `MaxWait` with nothing. -/
def Debounce (fNil : Bool) (wait : Int) (options : Option DebounceOptions) (ctxNil : Bool)
    (t0 : Int) : Option DebounceActor :=
  match options with
  | none => some ⟨fNil, NewDebounceOptions, Debounce.init NewDebounceOptions wait t0⟩
  | some o => if ctxNil then none else some ⟨fNil, o, Debounce.init o wait t0⟩

/-- The closure `throttled`: `invoke <- struct{}{}`.  The channel is unbuffered and never
closed: the send completes when the goroutine takes its `case <-invoke`, which it can do
only while it is in its loop.  The result is the loop iteration that accepts the call;
`none` stands for a call that never returns. -/
def Throttle.throttled (o : ThrottleOptions) (wait : Int) (s : ThrottleState) (now : Int) :
    Option (ThrottleState × Nat) :=
  if s.running then some (Throttle.step o wait s now ThrottleEvent.invoke) else none

/-- The closure `debounced`: `invoke <- struct{}{}`; see `Throttle.throttled`. -/
def Debounce.debounced (o : DebounceOptions) (wait : Int) (s : DebounceState) (now : Int) :
    Option (DebounceState × Nat) :=
  if s.running then some (Debounce.step o wait s now DebounceEvent.invoke) else none

/-! ## Step lemmas -/

theorem throttle_step_stopped (o : ThrottleOptions) (wait : Int) (s : ThrottleState)
    (now : Int) (e : ThrottleEvent) (h : s.running = false) :
    Throttle.step o wait s now e = (s, 0) := by
  simp [Throttle.step, h]

theorem debounce_step_stopped (o : DebounceOptions) (wait : Int) (s : DebounceState)
    (now : Int) (e : DebounceEvent) (h : s.running = false) :
    Debounce.step o wait s now e = (s, 0) := by
  simp [Debounce.step, h]

theorem insideWindow_eq_true (l : Option Int) (now wait : Int) :
    insideWindow l now wait = true ↔ ∃ t, l = some t ∧ now - t < wait := by
  cases l <;> simp [insideWindow]

/-! ## Run lemmas -/

theorem throttle_exec_append (o : ThrottleOptions) (wait : Int) (s : ThrottleState)
    (es fs : List (Int × ThrottleEvent)) :
    Throttle.exec o wait s (es ++ fs) = Throttle.exec o wait (Throttle.exec o wait s es) fs := by
  induction es generalizing s with
  | nil => rfl
  | cons p es ih => obtain ⟨now, e⟩ := p; exact ih _

theorem throttle_log_append (o : ThrottleOptions) (wait : Int) (s : ThrottleState)
    (es fs : List (Int × ThrottleEvent)) :
    Throttle.log o wait s (es ++ fs)
      = Throttle.log o wait s es ++ Throttle.log o wait (Throttle.exec o wait s es) fs := by
  induction es generalizing s with
  | nil => rfl
  | cons p es ih =>
    obtain ⟨now, e⟩ := p
    show List.replicate _ now ++ Throttle.log o wait _ (es ++ fs) = _
    rw [ih]
    simp only [Throttle.log, Throttle.exec, List.append_assoc]

theorem throttle_exec_stopped (o : ThrottleOptions) (wait : Int) (s : ThrottleState)
    (es : List (Int × ThrottleEvent)) (h : s.running = false) :
    Throttle.exec o wait s es = s := by
  induction es with
  | nil => rfl
  | cons p es ih =>
    obtain ⟨now, e⟩ := p
    simp only [Throttle.exec, throttle_step_stopped o wait s now e h, ih]

theorem throttle_log_stopped (o : ThrottleOptions) (wait : Int) (s : ThrottleState)
    (es : List (Int × ThrottleEvent)) (h : s.running = false) :
    Throttle.log o wait s es = [] := by
  induction es with
  | nil => rfl
  | cons p es ih =>
    obtain ⟨now, e⟩ := p
    simp only [Throttle.log, throttle_step_stopped o wait s now e h, ih,
      List.replicate_zero, List.nil_append]

theorem throttle_done_stops (o : ThrottleOptions) (wait : Int) (s : ThrottleState)
    (now : Int) : (Throttle.step o wait s now .done).1.running = false := by
  cases h : s.running <;> simp [Throttle.step, h, Throttle.onDone]

theorem debounce_exec_append (o : DebounceOptions) (wait : Int) (s : DebounceState)
    (es fs : List (Int × DebounceEvent)) :
    Debounce.exec o wait s (es ++ fs) = Debounce.exec o wait (Debounce.exec o wait s es) fs := by
  induction es generalizing s with
  | nil => rfl
  | cons p es ih => obtain ⟨now, e⟩ := p; exact ih _

theorem debounce_log_append (o : DebounceOptions) (wait : Int) (s : DebounceState)
    (es fs : List (Int × DebounceEvent)) :
    Debounce.log o wait s (es ++ fs)
      = Debounce.log o wait s es ++ Debounce.log o wait (Debounce.exec o wait s es) fs := by
  induction es generalizing s with
  | nil => rfl
  | cons p es ih =>
    obtain ⟨now, e⟩ := p
    show List.replicate _ now ++ Debounce.log o wait _ (es ++ fs) = _
    rw [ih]
    simp only [Debounce.log, Debounce.exec, List.append_assoc]

theorem debounce_exec_stopped (o : DebounceOptions) (wait : Int) (s : DebounceState)
    (es : List (Int × DebounceEvent)) (h : s.running = false) :
    Debounce.exec o wait s es = s := by
  induction es with
  | nil => rfl
  | cons p es ih =>
    obtain ⟨now, e⟩ := p
    simp only [Debounce.exec, debounce_step_stopped o wait s now e h, ih]

theorem debounce_log_stopped (o : DebounceOptions) (wait : Int) (s : DebounceState)
    (es : List (Int × DebounceEvent)) (h : s.running = false) :
    Debounce.log o wait s es = [] := by
  induction es with
  | nil => rfl
  | cons p es ih =>
    obtain ⟨now, e⟩ := p
    simp only [Debounce.log, debounce_step_stopped o wait s now e h, ih,
      List.replicate_zero, List.nil_append]

theorem debounce_done_stops (o : DebounceOptions) (wait : Int) (s : DebounceState)
    (now : Int) : (Debounce.step o wait s now .done).1.running = false := by
  cases h : s.running <;> simp [Debounce.step, h, Debounce.onDone]

theorem debounce_step_live (o : DebounceOptions) (wait : Int) (s : DebounceState) (now : Int)
    (e : DebounceEvent) (hrun : s.running = true) (hne : e ≠ .done)
    (htr : e = .timer → o.Trailing = true) :
    (Debounce.step o wait s now e).1.running = true ∧
    (s.maxTimer ≠ none → (Debounce.step o wait s now e).1.maxTimer ≠ none) ∧
    (Debounce.step o wait s now e).1.invokedCount
      = if e = .invoke then (s.invokedCount + 1) % uint64Size else s.invokedCount := by
  cases e with
  | done => exact absurd rfl hne
  | maxTimer =>
    simp only [Debounce.step, hrun, if_true, Debounce.onMaxTimer]
    split_ifs <;> simp_all
  | invoke =>
    simp only [Debounce.step, hrun, if_true, Debounce.onInvoke]
    split_ifs <;> simp_all
  | timer =>
    have ht := htr rfl
    simp only [Debounce.step, hrun, if_true, Debounce.onTimer, ht]
    split_ifs <;> simp_all

theorem debounce_count (o : DebounceOptions) (wait : Int) (s : DebounceState)
    (es : List (Int × DebounceEvent)) (hrun : s.running = true)
    (hlt : s.invokedCount < uint64Size)
    (hev : ∀ p ∈ es, p.2 ≠ .done ∧ (p.2 = .timer → o.Trailing = true)) :
    (Debounce.exec o wait s es).running = true ∧
    (s.maxTimer ≠ none → (Debounce.exec o wait s es).maxTimer ≠ none) ∧
    (Debounce.exec o wait s es).invokedCount
      = (s.invokedCount + Debounce.triggerCount es) % uint64Size := by
  induction es generalizing s with
  | nil =>
    refine ⟨hrun, fun h => h, ?_⟩
    simp [Debounce.exec, Debounce.triggerCount, Nat.mod_eq_of_lt hlt]
  | cons p es ih =>
    obtain ⟨now, e⟩ := p
    have hp := hev (now, e) (List.mem_cons_self _ _)
    obtain ⟨h1, h2, h3⟩ := debounce_step_live o wait s now e hrun hp.1 hp.2
    have hlt2 : (Debounce.step o wait s now e).1.invokedCount < uint64Size := by
      rw [h3]
      split_ifs
      · exact Nat.mod_lt _ (by decide)
      · exact hlt
    obtain ⟨i1, i2, i3⟩ := ih (Debounce.step o wait s now e).1 h1 hlt2
      (fun q hq => hev q (List.mem_cons_of_mem _ hq))
    refine ⟨i1, fun h => i2 (h2 h), ?_⟩
    show (Debounce.exec o wait (Debounce.step o wait s now e).1 es).invokedCount = _
    rw [i3, h3]
    by_cases he : e = .invoke
    · simp only [he, if_true, Debounce.triggerCount, List.countP_cons_of_pos, decide_True]
      rw [Nat.add_mod, Nat.mod_mod, ← Nat.add_mod]
      congr 1
      omega
    · simp [he, Debounce.triggerCount]

theorem throttle_step_invoke (o : ThrottleOptions) (wait : Int) (s : ThrottleState)
    (now : Int) (hrun : s.running = true) :
    (Throttle.step o wait s now .invoke).1.running = true ∧
    (Throttle.step o wait s now .invoke).1.timer = s.timer ∧
    (Throttle.step o wait s now .invoke).1.invokedCount
      = (s.invokedCount + 1) % uint64Size ∧
    (o.Leading = false → (Throttle.step o wait s now .invoke).2 = 0) := by
  simp only [Throttle.step, hrun, if_true, Throttle.onInvoke]
  split_ifs <;> simp_all

theorem throttle_burst (o : ThrottleOptions) (wait : Int) (s : ThrottleState)
    (ts : List Int) (hrun : s.running = true) (hlt : s.invokedCount < uint64Size) :
    (Throttle.exec o wait s (Throttle.triggers ts)).running = true ∧
    (Throttle.exec o wait s (Throttle.triggers ts)).timer = s.timer ∧
    (Throttle.exec o wait s (Throttle.triggers ts)).invokedCount
      = (s.invokedCount + ts.length) % uint64Size ∧
    (o.Leading = false → Throttle.log o wait s (Throttle.triggers ts) = []) := by
  induction ts generalizing s with
  | nil =>
    refine ⟨hrun, rfl, ?_, fun _ => rfl⟩
    simp [Throttle.exec, Throttle.triggers, Nat.mod_eq_of_lt hlt]
  | cons t ts ih =>
    obtain ⟨h1, h2, h3, h4⟩ := throttle_step_invoke o wait s t hrun
    have hlt2 : (Throttle.step o wait s t .invoke).1.invokedCount < uint64Size := by
      rw [h3]; exact Nat.mod_lt _ (by decide)
    obtain ⟨i1, i2, i3, i4⟩ := ih (Throttle.step o wait s t .invoke).1 h1 hlt2
    refine ⟨i1, i2.trans h2, ?_, ?_⟩
    · show (Throttle.exec o wait (Throttle.step o wait s t .invoke).1
        (Throttle.triggers ts)).invokedCount = _
      rw [i3, h3, List.length_cons, Nat.add_mod, Nat.mod_mod, ← Nat.add_mod]
      congr 1
      omega
    · intro hl
      show List.replicate (Throttle.step o wait s t .invoke).2 t
        ++ Throttle.log o wait (Throttle.step o wait s t .invoke).1 (Throttle.triggers ts) = []
      rw [h4 hl, i4 hl]
      rfl

theorem debounce_step_invoke (o : DebounceOptions) (wait : Int) (s : DebounceState)
    (now : Int) (hrun : s.running = true) :
    (Debounce.step o wait s now .invoke).1.running = true ∧
    (Debounce.step o wait s now .invoke).1.timer = some (now + wait) ∧
    (Debounce.step o wait s now .invoke).1.invokedCount
      = (s.invokedCount + 1) % uint64Size ∧
    (o.Leading = false → (Debounce.step o wait s now .invoke).2 = 0) := by
  simp only [Debounce.step, hrun, if_true, Debounce.onInvoke]
  split_ifs <;> simp_all

theorem debounce_step_quiet (o : DebounceOptions) (wait : Int) (s : DebounceState)
    (now : Int) (hrun : s.running = true) :
    (Debounce.step o wait s now .timer).1.running = true ∧
    (s.invokedCount = 0 → (Debounce.step o wait s now .timer).1.invokedCount = 0) ∧
    (timerReady s.timer now = true → (Debounce.step o wait s now .timer).1.timer = none) ∧
    (timerReady s.timer now = false → Debounce.step o wait s now .timer = (s, 0)) := by
  cases hr : timerReady s.timer now
  · simp [Debounce.step, hrun, hr]
  · simp only [Debounce.step, hrun, hr, if_true, Debounce.onTimer]
    split_ifs <;> simp_all

theorem debounce_step_quiet_dispatch (o : DebounceOptions) (wait : Int) (s : DebounceState)
    (now : Int) (hrun : s.running = true) (hdue : timerReady s.timer now = true) :
    (Debounce.step o wait s now .timer).2
      = if o.Trailing = true then
          (if o.Leading = true then (if 1 < s.invokedCount then 1 else 0)
            else (if 0 < s.invokedCount then 1 else 0))
        else 0 := by
  simp only [Debounce.step, hrun, hdue, if_true, Debounce.onTimer]
  split_ifs <;> simp_all

theorem debounce_last_trigger_inv (o : DebounceOptions) (wait : Int) (s : DebounceState)
    (lt : Option Int) (es : List (Int × DebounceEvent))
    (hev : ∀ p ∈ es, p.2 = .invoke ∨ p.2 = .timer) (hrun : s.running = true)
    (h2 : lt = none → s.invokedCount = 0)
    (h3 : ∀ t, lt = some t → ∀ d, s.timer = some d → d = t + wait) :
    (Debounce.exec o wait s es).running = true ∧
    (Debounce.lastTrigger lt es = none → (Debounce.exec o wait s es).invokedCount = 0) ∧
    (∀ t, Debounce.lastTrigger lt es = some t →
      ∀ d, (Debounce.exec o wait s es).timer = some d → d = t + wait) := by
  induction es generalizing s lt with
  | nil => exact ⟨hrun, h2, h3⟩
  | cons p es ih =>
    obtain ⟨now, e⟩ := p
    have hev2 : ∀ q ∈ es, q.2 = DebounceEvent.invoke ∨ q.2 = .timer :=
      fun q hq => hev q (List.mem_cons_of_mem _ hq)
    rcases hev (now, e) (List.mem_cons_self _ _) with he | he
    · simp only at he
      subst he
      obtain ⟨a1, a2, _, _⟩ := debounce_step_invoke o wait s now hrun
      have := ih (Debounce.step o wait s now .invoke).1 (some now) hev2 a1
        (fun h => by cases h)
        (fun t ht d hd => by
          cases ht
          rw [a2] at hd
          cases hd
          rfl)
      simpa [Debounce.exec, Debounce.lastTrigger] using this
    · simp only at he
      subst he
      obtain ⟨a1, a2, a3, a4⟩ := debounce_step_quiet o wait s now hrun
      have := ih (Debounce.step o wait s now .timer).1 lt hev2 a1
        (fun h => a2 (h2 h))
        (fun t ht d hd => by
          cases hr : timerReady s.timer now
          · rw [a4 hr] at hd
            exact h3 t ht d hd
          · rw [a3 hr] at hd
            cases hd)
      simpa [Debounce.exec, Debounce.lastTrigger] using this

theorem debounce_quiet_idle (o : DebounceOptions) (wait : Int) (s : DebounceState)
    (qs : List Int) (hidle : s.timer = none) :
    Debounce.log o wait s (Debounce.quietEvents qs) = [] := by
  induction qs with
  | nil => rfl
  | cons q qs ih =>
    have hstep : Debounce.step o wait s q .timer = (s, 0) := by
      cases hr : s.running <;> simp [Debounce.step, hr, hidle, timerReady]
    show List.replicate (Debounce.step o wait s q .timer).2 q
      ++ Debounce.log o wait (Debounce.step o wait s q .timer).1 (Debounce.quietEvents qs) = []
    rw [hstep]
    exact ih

theorem throttle_pending_inv (wait : Int) (s : ThrottleState) (g : Nat)
    (es : List (Int × ThrottleEvent))
    (h : s.running = true → s.invokedCount = g % uint64Size) :
    (Throttle.exec (throttleOptions none) wait s es).running = true →
    (Throttle.exec (throttleOptions none) wait s es).invokedCount
      = Throttle.pending (throttleOptions none) wait s g es % uint64Size := by
  induction es generalizing s g with
  | nil => exact h
  | cons p es ih =>
    obtain ⟨now, e⟩ := p
    show (Throttle.exec (throttleOptions none) wait
        (Throttle.step (throttleOptions none) wait s now e).1 es).running = true →
      (Throttle.exec (throttleOptions none) wait
        (Throttle.step (throttleOptions none) wait s now e).1 es).invokedCount
      = Throttle.pending (throttleOptions none) wait
          (Throttle.step (throttleOptions none) wait s now e).1
          (if 0 < (Throttle.step (throttleOptions none) wait s now e).2 then 0
            else if e = ThrottleEvent.invoke ∧ s.running = true then g + 1 else g) es
        % uint64Size
    apply ih
    intro hrun'
    cases hr : s.running
    · rw [throttle_step_stopped _ wait s now e hr] at hrun'
      rw [hr] at hrun'
      cases hrun'
    · have hc := h hr
      cases e with
      | done =>
        rw [throttle_done_stops] at hrun'
        cases hrun'
      | invoke =>
        obtain ⟨_, _, a3, a4⟩ := throttle_step_invoke (throttleOptions none) wait s now hr
        rw [a3, a4 rfl, hc]
        simp only [lt_irrefl, if_false, and_self, if_true]
        rw [Nat.add_mod, Nat.mod_mod, ← Nat.add_mod]
      | timer =>
        cases hd : timerReady s.timer now
        · simp [Throttle.step, hr, hd, hc]
        · by_cases h0 : s.invokedCount = 0
          · have : (Throttle.step (throttleOptions none) wait s now .timer)
                = (⟨s.lastInvoked, s.invokedCount, some (now + wait), true⟩, 0) := by
              simp only [Throttle.step, hr, hd, if_true, Throttle.onTimer, h0]
            rw [this]
            simp [hc]
          · have : (Throttle.step (throttleOptions none) wait s now .timer)
                = (⟨s.lastInvoked, 0, some (now + wait), true⟩, 1) := by
              simp only [Throttle.step, hr, hd, if_true, Throttle.onTimer, h0, if_false]
              rfl
            rw [this]
            simp

theorem throttle_spaced_of_bound (o : ThrottleOptions) (wait : Int) (hwait : 0 ≤ wait)
    (b : ThrottleState → Option Int)
    (hstep : ∀ (s : ThrottleState) (now : Int) (e : ThrottleEvent), e ≠ .done →
      ((Throttle.step o wait s now e).2 = 0 ∧ b (Throttle.step o wait s now e).1 = b s) ∨
      ((Throttle.step o wait s now e).2 ≤ 1 ∧ (∀ d, b s = some d → d ≤ now) ∧
        b (Throttle.step o wait s now e).1 = some (now + wait)))
    (s : ThrottleState) (es : List (Int × ThrottleEvent)) (hev : ∀ p ∈ es, p.2 ≠ .done) :
    List.Pairwise (fun x y => x + wait ≤ y) (Throttle.log o wait s es) ∧
    ∀ x ∈ Throttle.log o wait s es, ∀ d, b s = some d → d ≤ x := by
  induction es generalizing s with
  | nil => exact ⟨List.Pairwise.nil, fun x hx => by cases hx⟩
  | cons p es ih =>
    obtain ⟨now, e⟩ := p
    obtain ⟨ih1, ih2⟩ := ih (Throttle.step o wait s now e).1
      (fun q hq => hev q (List.mem_cons_of_mem _ hq))
    have hlog : Throttle.log o wait s ((now, e) :: es)
        = List.replicate (Throttle.step o wait s now e).2 now
          ++ Throttle.log o wait (Throttle.step o wait s now e).1 es := rfl
    rw [hlog]
    rcases hstep s now e (hev (now, e) (List.mem_cons_self _ _)) with ⟨h0, hb⟩ | ⟨h1, hle, hb⟩
    · rw [h0, List.replicate_zero, List.nil_append]
      exact ⟨ih1, fun x hx d hd => ih2 x hx d (hb.trans hd)⟩
    · have hlater : ∀ x ∈ Throttle.log o wait (Throttle.step o wait s now e).1 es,
          now + wait ≤ x := fun x hx => ih2 x hx _ hb
      constructor
      · rw [List.pairwise_append]
        refine ⟨?_, ih1, ?_⟩
        · interval_cases hk : (Throttle.step o wait s now e).2
          · exact List.Pairwise.nil
          · exact List.pairwise_singleton _ _
        · intro x hx y hy
          rw [(List.mem_replicate.mp hx).2]
          exact hlater y hy
      · intro x hx d hd
        rcases List.mem_append.mp hx with hx | hx
        · rw [(List.mem_replicate.mp hx).2]
          exact hle d hd
        · have := hlater x hx
          have := hle d hd
          omega

theorem throttle_step_trailing_only (o : ThrottleOptions) (wait : Int)
    (hl : o.Leading = false) (s : ThrottleState) (now : Int) (e : ThrottleEvent)
    (he : e ≠ .done) :
    ((Throttle.step o wait s now e).2 = 0 ∧ (Throttle.step o wait s now e).1.timer = s.timer) ∨
    ((Throttle.step o wait s now e).2 ≤ 1 ∧ (∀ d, s.timer = some d → d ≤ now) ∧
      (Throttle.step o wait s now e).1.timer = some (now + wait)) := by
  cases hr : s.running
  · left; rw [throttle_step_stopped o wait s now e hr]; exact ⟨rfl, rfl⟩
  · cases e with
    | done => exact absurd rfl he
    | invoke =>
      obtain ⟨_, a2, _, a4⟩ := throttle_step_invoke o wait s now hr
      exact Or.inl ⟨a4 hl, a2⟩
    | timer =>
      cases hd : timerReady s.timer now
      · left; simp [Throttle.step, hr, hd]
      · right
        refine ⟨?_, ?_, ?_⟩
        · simp only [Throttle.step, hr, hd, if_true, Throttle.onTimer]
          split_ifs <;> simp
        · intro d hs
          rw [hs] at hd
          simpa [timerReady] using hd
        · simp only [Throttle.step, hr, hd, if_true, Throttle.onTimer]
          split_ifs <;> rfl

theorem throttle_step_leading_only (o : ThrottleOptions) (wait : Int)
    (ht : o.Trailing = false) (s : ThrottleState) (now : Int) (e : ThrottleEvent)
    (he : e ≠ .done) :
    ((Throttle.step o wait s now e).2 = 0 ∧
      (Throttle.step o wait s now e).1.lastInvoked.map (fun t => t + wait)
        = s.lastInvoked.map (fun t => t + wait)) ∨
    ((Throttle.step o wait s now e).2 ≤ 1 ∧
      (∀ d, s.lastInvoked.map (fun t => t + wait) = some d → d ≤ now) ∧
      (Throttle.step o wait s now e).1.lastInvoked.map (fun t => t + wait)
        = some (now + wait)) := by
  cases hr : s.running
  · left; rw [throttle_step_stopped o wait s now e hr]; exact ⟨rfl, rfl⟩
  · cases e with
    | done => exact absurd rfl he
    | invoke =>
      cases hin : insideWindow s.lastInvoked now wait
      · right
        refine ⟨?_, ?_, ?_⟩
        · simp only [Throttle.step, hr, if_true, Throttle.onInvoke, hin, Bool.false_eq_true,
            if_false]
          split_ifs <;> simp
        · intro d hd
          cases hl : s.lastInvoked with
          | none => rw [hl] at hd; cases hd
          | some t =>
            rw [hl] at hd hin
            simp only [Option.map_some', Option.some.injEq] at hd
            simp only [insideWindow, decide_eq_false_iff_not, not_lt] at hin
            omega
        · simp [Throttle.step, hr, Throttle.onInvoke, hin]
      · left
        simp [Throttle.step, hr, Throttle.onInvoke, hin]
    | timer =>
      left
      cases hd : timerReady s.timer now
      · simp [Throttle.step, hr, hd]
      · simp only [Throttle.step, hr, hd, if_true, Throttle.onTimer, ht]
        split_ifs <;> simp_all

theorem debounce_step_inside (o : DebounceOptions) (wait : Int) (s : DebounceState)
    (t1 now : Int) (hrun : s.running = true) (hlast : s.lastInvoked = some t1)
    (hin : now - t1 < wait) :
    Debounce.step o wait s now .invoke
      = (⟨some t1, (s.invokedCount + 1) % uint64Size, some (now + wait), s.maxTimer, true⟩,
          0) := by
  have : insideWindow (some t1) now wait = true := by
    simpa [insideWindow] using hin
  simp only [Debounce.step, hrun, if_true, Debounce.onInvoke, hlast, this]

theorem debounce_inside_burst (o : DebounceOptions) (wait : Int) (s : DebounceState)
    (t1 : Int) (ts : List Int) (hrun : s.running = true) (hlast : s.lastInvoked = some t1)
    (hlt : s.invokedCount < uint64Size) (hin : ∀ t ∈ ts, t - t1 < wait) :
    (Debounce.exec o wait s (Debounce.triggers ts)).running = true ∧
    (Debounce.exec o wait s (Debounce.triggers ts)).lastInvoked = some t1 ∧
    (Debounce.exec o wait s (Debounce.triggers ts)).invokedCount
      = (s.invokedCount + ts.length) % uint64Size ∧
    Debounce.log o wait s (Debounce.triggers ts) = [] := by
  induction ts generalizing s with
  | nil =>
    refine ⟨hrun, hlast, ?_, rfl⟩
    simp [Debounce.exec, Debounce.triggers, Nat.mod_eq_of_lt hlt]
  | cons t ts ih =>
    have hs := debounce_step_inside o wait s t1 t hrun hlast (hin t (List.mem_cons_self _ _))
    have hexec : Debounce.exec o wait s (Debounce.triggers (t :: ts))
        = Debounce.exec o wait (Debounce.step o wait s t .invoke).1 (Debounce.triggers ts) :=
      rfl
    have hlog : Debounce.log o wait s (Debounce.triggers (t :: ts))
        = List.replicate (Debounce.step o wait s t .invoke).2 t
          ++ Debounce.log o wait (Debounce.step o wait s t .invoke).1 (Debounce.triggers ts) :=
      rfl
    rw [hexec, hlog, hs]
    obtain ⟨i1, i2, i3, i4⟩ := ih
      ⟨some t1, (s.invokedCount + 1) % uint64Size, some (t + wait), s.maxTimer, true⟩ rfl rfl
      (Nat.mod_lt _ (by decide)) (fun u hu => hin u (List.mem_cons_of_mem _ hu))
    refine ⟨i1, i2, ?_, ?_⟩
    · rw [i3, List.length_cons]
      simp only
      rw [Nat.add_mod, Nat.mod_mod, ← Nat.add_mod]
      congr 1
      omega
    · rw [i4]; rfl

theorem uint64_succ_cases (c : Nat) (hc : c < uint64Size) :
    (c + 1) % uint64Size = c + 1 ∨ (c + 1) % uint64Size = 0 := by
  by_cases h : c + 1 < uint64Size
  · exact Or.inl (Nat.mod_eq_of_lt h)
  · right
    have : c + 1 = uint64Size := by omega
    rw [this, Nat.mod_self]

theorem throttle_step_count (o : ThrottleOptions) (wait : Int) (s : ThrottleState)
    (now : Int) (e : ThrottleEvent) :
    (Throttle.step o wait s now e).1.invokedCount = s.invokedCount ∨
    (e = .invoke ∧
      (Throttle.step o wait s now e).1.invokedCount = (s.invokedCount + 1) % uint64Size) ∨
    (Throttle.step o wait s now e).1.invokedCount = 0 := by
  cases hr : s.running
  · left; rw [throttle_step_stopped o wait s now e hr]
  · cases e with
    | done => left; simp [Throttle.step, hr, Throttle.onDone]
    | invoke => right; left; exact ⟨rfl, (throttle_step_invoke o wait s now hr).2.2.1⟩
    | timer =>
      cases hd : timerReady s.timer now
      · left; simp [Throttle.step, hr, hd]
      · simp only [Throttle.step, hr, hd, if_true, Throttle.onTimer]
        split_ifs <;> simp

theorem debounce_step_count (o : DebounceOptions) (wait : Int) (s : DebounceState)
    (now : Int) (e : DebounceEvent) :
    (Debounce.step o wait s now e).1.invokedCount = s.invokedCount ∨
    (e = .invoke ∧
      (Debounce.step o wait s now e).1.invokedCount = (s.invokedCount + 1) % uint64Size) ∨
    (Debounce.step o wait s now e).1.invokedCount = 0 := by
  cases hr : s.running
  · left; rw [debounce_step_stopped o wait s now e hr]
  · cases e with
    | done => left; simp [Debounce.step, hr, Debounce.onDone]
    | maxTimer =>
      left
      cases hd : timerReady s.maxTimer now <;> simp [Debounce.step, hr, hd, Debounce.onMaxTimer]
    | invoke => right; left; exact ⟨rfl, (debounce_step_invoke o wait s now hr).2.2.1⟩
    | timer =>
      cases hd : timerReady s.timer now
      · left; simp [Debounce.step, hr, hd]
      · simp only [Debounce.step, hr, hd, if_true, Debounce.onTimer]
        split_ifs <;> simp

theorem throttle_step_last (o : ThrottleOptions) (wait : Int) (s : ThrottleState)
    (now : Int) (e : ThrottleEvent) :
    (e = .invoke ∧ s.running = true →
      (Throttle.step o wait s now e).1.lastInvoked ≠ none ∧
      ((insideWindow s.lastInvoked now wait = true ∧
          (Throttle.step o wait s now e).1.lastInvoked = s.lastInvoked) ∨
        (insideWindow s.lastInvoked now wait = false ∧
          (Throttle.step o wait s now e).1.lastInvoked = some now))) ∧
    (¬ (e = .invoke ∧ s.running = true) →
      (Throttle.step o wait s now e).1.lastInvoked = s.lastInvoked) := by
  constructor
  · rintro ⟨rfl, hr⟩
    cases hin : insideWindow s.lastInvoked now wait
    · simp [Throttle.step, hr, Throttle.onInvoke, hin]
    · obtain ⟨t, ht, _⟩ := (insideWindow_eq_true _ _ _).mp hin
      rw [ht] at hin
      simp [Throttle.step, hr, Throttle.onInvoke, hin, ht]
  · intro hne
    cases hr : s.running
    · rw [throttle_step_stopped o wait s now e hr]
    · cases e with
      | done => simp [Throttle.step, hr, Throttle.onDone]
      | invoke => exact absurd ⟨rfl, hr⟩ hne
      | timer =>
        cases hd : timerReady s.timer now
        · simp [Throttle.step, hr, hd]
        · simp only [Throttle.step, hr, hd, if_true, Throttle.onTimer]
          split_ifs <;> rfl

theorem debounce_step_last (o : DebounceOptions) (wait : Int) (s : DebounceState)
    (now : Int) (e : DebounceEvent) :
    (e = .invoke ∧ s.running = true →
      (Debounce.step o wait s now e).1.lastInvoked ≠ none ∧
      ((insideWindow s.lastInvoked now wait = true ∧
          (Debounce.step o wait s now e).1.lastInvoked = s.lastInvoked) ∨
        (insideWindow s.lastInvoked now wait = false ∧
          (Debounce.step o wait s now e).1.lastInvoked = some now))) ∧
    (¬ (e = .invoke ∧ s.running = true) →
      (Debounce.step o wait s now e).1.lastInvoked = s.lastInvoked) := by
  constructor
  · rintro ⟨rfl, hr⟩
    cases hin : insideWindow s.lastInvoked now wait
    · simp only [Debounce.step, hr, if_true, Debounce.onInvoke, hin, Bool.false_eq_true,
        if_false]
      split_ifs <;> simp
    · obtain ⟨t, ht, _⟩ := (insideWindow_eq_true _ _ _).mp hin
      rw [ht] at hin
      simp [Debounce.step, hr, Debounce.onInvoke, hin, ht]
  · intro hne
    cases hr : s.running
    · rw [debounce_step_stopped o wait s now e hr]
    · cases e with
      | done => simp [Debounce.step, hr, Debounce.onDone]
      | maxTimer =>
        cases hd : timerReady s.maxTimer now <;>
          simp [Debounce.step, hr, hd, Debounce.onMaxTimer]
      | invoke => exact absurd ⟨rfl, hr⟩ hne
      | timer =>
        cases hd : timerReady s.timer now
        · simp [Debounce.step, hr, hd]
        · simp only [Debounce.step, hr, hd, if_true, Debounce.onTimer]
          split_ifs <;> rfl

theorem throttle_last_unset_iff (o : ThrottleOptions) (wait : Int) (s : ThrottleState)
    (es : List (Int × ThrottleEvent)) :
    (Throttle.exec o wait s es).lastInvoked = none
      ↔ s.lastInvoked = none ∧ Throttle.accepted o wait s es = 0 := by
  induction es generalizing s with
  | nil => simp [Throttle.exec, Throttle.accepted]
  | cons p es ih =>
    obtain ⟨now, e⟩ := p
    show (Throttle.exec o wait (Throttle.step o wait s now e).1 es).lastInvoked = none
      ↔ s.lastInvoked = none ∧
        (if e = ThrottleEvent.invoke ∧ s.running = true then 1 else 0)
          + Throttle.accepted o wait (Throttle.step o wait s now e).1 es = 0
    rw [ih]
    obtain ⟨h1, h2⟩ := throttle_step_last o wait s now e
    by_cases hc : e = .invoke ∧ s.running = true
    · have hne := (h1 hc).1
      constructor
      · intro h; exact absurd h.1 hne
      · intro h
        have h2 := h.2
        rw [if_pos hc] at h2
        omega
    · rw [h2 hc]
      simp [hc]

theorem debounce_last_unset_iff (o : DebounceOptions) (wait : Int) (s : DebounceState)
    (es : List (Int × DebounceEvent)) :
    (Debounce.exec o wait s es).lastInvoked = none
      ↔ s.lastInvoked = none ∧ Debounce.accepted o wait s es = 0 := by
  induction es generalizing s with
  | nil => simp [Debounce.exec, Debounce.accepted]
  | cons p es ih =>
    obtain ⟨now, e⟩ := p
    show (Debounce.exec o wait (Debounce.step o wait s now e).1 es).lastInvoked = none
      ↔ s.lastInvoked = none ∧
        (if e = DebounceEvent.invoke ∧ s.running = true then 1 else 0)
          + Debounce.accepted o wait (Debounce.step o wait s now e).1 es = 0
    rw [ih]
    obtain ⟨h1, h2⟩ := debounce_step_last o wait s now e
    by_cases hc : e = .invoke ∧ s.running = true
    · have hne := (h1 hc).1
      constructor
      · intro h; exact absurd h.1 hne
      · intro h
        have h2 := h.2
        rw [if_pos hc] at h2
        omega
    · rw [h2 hc]
      simp [hc]

theorem debounce_step_trailing_count (o : DebounceOptions) (wait : Int) (s : DebounceState)
    (now : Int) (e : DebounceEvent) (ht : o.Trailing = true) :
    (Debounce.step o wait s now e).1.invokedCount
      = if e = .invoke ∧ s.running = true then (s.invokedCount + 1) % uint64Size
        else s.invokedCount := by
  cases hr : s.running
  · rw [debounce_step_stopped o wait s now e hr]
    simp
  · cases e with
    | done => simp [Debounce.step, hr, Debounce.onDone]
    | maxTimer =>
      cases hd : timerReady s.maxTimer now <;>
        simp [Debounce.step, hr, hd, Debounce.onMaxTimer]
    | invoke =>
      rw [(debounce_step_invoke o wait s now hr).2.2.1]
      simp
    | timer =>
      cases hd : timerReady s.timer now
      · simp [Debounce.step, hr, hd]
      · simp only [Debounce.step, hr, hd, if_true, Debounce.onTimer, ht]
        split_ifs <;> simp_all

theorem debounce_trailing_count (o : DebounceOptions) (wait : Int) (s : DebounceState)
    (es : List (Int × DebounceEvent)) (ht : o.Trailing = true)
    (hlt : s.invokedCount < uint64Size) :
    (Debounce.exec o wait s es).invokedCount
      = (s.invokedCount + Debounce.accepted o wait s es) % uint64Size := by
  induction es generalizing s with
  | nil => simp [Debounce.exec, Debounce.accepted, Nat.mod_eq_of_lt hlt]
  | cons p es ih =>
    obtain ⟨now, e⟩ := p
    have hc := debounce_step_trailing_count o wait s now e ht
    have hlt2 : (Debounce.step o wait s now e).1.invokedCount < uint64Size := by
      rw [hc]
      split_ifs
      · exact Nat.mod_lt _ (by decide)
      · exact hlt
    show (Debounce.exec o wait (Debounce.step o wait s now e).1 es).invokedCount
      = (s.invokedCount + ((if e = DebounceEvent.invoke ∧ s.running = true then 1 else 0)
          + Debounce.accepted o wait (Debounce.step o wait s now e).1 es)) % uint64Size
    rw [ih _ hlt2, hc]
    by_cases hcond : e = .invoke ∧ s.running = true
    · rw [if_pos hcond, if_pos hcond, Nat.add_mod, Nat.mod_mod, ← Nat.add_mod]
      congr 1
      omega
    · rw [if_neg hcond, if_neg hcond, Nat.zero_add]

theorem throttle_step_invoke_dispatch (o : ThrottleOptions) (wait : Int) (s : ThrottleState)
    (now : Int) (hr : s.running = true) :
    (Throttle.step o wait s now .invoke).2
      = if insideWindow s.lastInvoked now wait = true then 0
        else if o.Leading = true then 1 else 0 := by
  simp only [Throttle.step, hr, if_true, Throttle.onInvoke]
  split_ifs <;> rfl

theorem throttle_step_timer_silent (o : ThrottleOptions) (wait : Int) (s : ThrottleState)
    (now : Int) (ht : o.Trailing = false) :
    (Throttle.step o wait s now .timer).2 = 0 := by
  cases hr : s.running
  · rw [throttle_step_stopped o wait s now _ hr]
  · cases hd : timerReady s.timer now
    · simp [Throttle.step, hr, hd]
    · simp only [Throttle.step, hr, hd, if_true, Throttle.onTimer, ht]
      split_ifs <;> simp_all

theorem throttle_leading_spaced (o : ThrottleOptions) (wait : Int) (hwait : 0 ≤ wait)
    (s : ThrottleState) (es : List (Int × ThrottleEvent)) :
    List.Pairwise (fun x y => x + wait ≤ y) (Throttle.leadingLog o wait s es) ∧
    ∀ x ∈ Throttle.leadingLog o wait s es, ∀ t, s.lastInvoked = some t → t + wait ≤ x := by
  induction es generalizing s with
  | nil => exact ⟨List.Pairwise.nil, fun x hx => by cases hx⟩
  | cons p es ih =>
    obtain ⟨now, e⟩ := p
    obtain ⟨ih1, ih2⟩ := ih (Throttle.step o wait s now e).1
    have hlog : Throttle.leadingLog o wait s ((now, e) :: es)
        = (if e = ThrottleEvent.invoke then
            List.replicate (Throttle.step o wait s now e).2 now else [])
          ++ Throttle.leadingLog o wait (Throttle.step o wait s now e).1 es := rfl
    rw [hlog]
    obtain ⟨h1, h2⟩ := throttle_step_last o wait s now e
    by_cases hc : e = .invoke ∧ s.running = true
    · obtain ⟨he, hr⟩ := hc
      subst he
      have hk := throttle_step_invoke_dispatch o wait s now hr
      rw [if_pos rfl]
      rcases (h1 ⟨rfl, hr⟩).2 with ⟨hin, hl⟩ | ⟨hin, hl⟩
      · rw [hk, if_pos hin, List.replicate_zero, List.nil_append]
        exact ⟨ih1, fun x hx t ht => ih2 x hx t (hl.trans ht)⟩
      · have hlater : ∀ x ∈ Throttle.leadingLog o wait
            (Throttle.step o wait s now .invoke).1 es, now + wait ≤ x :=
          fun x hx => ih2 x hx now hl
        have hopen : ∀ t, s.lastInvoked = some t → t + wait ≤ now := by
          intro t ht
          rw [ht] at hin
          simp only [insideWindow, decide_eq_false_iff_not, not_lt] at hin
          omega
        have hk1 : (Throttle.step o wait s now .invoke).2 ≤ 1 := by
          rw [hk]; split_ifs <;> simp
        constructor
        · rw [List.pairwise_append]
          refine ⟨?_, ih1, ?_⟩
          · interval_cases hkk : (Throttle.step o wait s now .invoke).2
            · exact List.Pairwise.nil
            · exact List.pairwise_singleton _ _
          · intro x hx y hy
            rw [(List.mem_replicate.mp hx).2]
            exact hlater y hy
        · intro x hx t ht
          rcases List.mem_append.mp hx with hx | hx
          · rw [(List.mem_replicate.mp hx).2]
            exact hopen t ht
          · have := hlater x hx
            have := hopen t ht
            omega
    · have hnil : (if e = ThrottleEvent.invoke then
          List.replicate (Throttle.step o wait s now e).2 now else []) = [] := by
        by_cases he : e = .invoke
        · have hr : s.running = false := by
            cases h : s.running
            · rfl
            · exact absurd ⟨he, h⟩ hc
          rw [if_pos he, throttle_step_stopped o wait s now e hr]
          rfl
        · rw [if_neg he]
      rw [hnil, List.nil_append]
      exact ⟨ih1, fun x hx t ht => ih2 x hx t ((h2 hc).trans ht)⟩

theorem throttle_log_eq_leading (o : ThrottleOptions) (wait : Int) (ht : o.Trailing = false)
    (s : ThrottleState) (es : List (Int × ThrottleEvent)) (hev : ∀ p ∈ es, p.2 ≠ .done) :
    Throttle.log o wait s es = Throttle.leadingLog o wait s es := by
  induction es generalizing s with
  | nil => rfl
  | cons p es ih =>
    obtain ⟨now, e⟩ := p
    show List.replicate (Throttle.step o wait s now e).2 now
        ++ Throttle.log o wait (Throttle.step o wait s now e).1 es
      = (if e = ThrottleEvent.invoke then
          List.replicate (Throttle.step o wait s now e).2 now else [])
        ++ Throttle.leadingLog o wait (Throttle.step o wait s now e).1 es
    rw [ih _ (fun q hq => hev q (List.mem_cons_of_mem _ hq))]
    cases e with
    | done => exact absurd rfl (hev _ (List.mem_cons_self _ _))
    | invoke => simp
    | timer => simp [throttle_step_timer_silent o wait s now ht]

theorem span_bounds (wait D : Int) (k : Nat) (hwait : 0 < wait)
    (hlo : D < ((k : Int) + 1) * wait) (hhi : ((k : Int) - 1) * wait ≤ D) :
    ⌊(D : ℚ) / wait⌋ ≤ (k : Int) ∧ (k : Int) ≤ ⌈(D : ℚ) / wait⌉ + 1 := by
  have hw : (0 : ℚ) < (wait : ℚ) := by exact_mod_cast hwait
  constructor
  · rw [← Int.lt_add_one_iff, Int.floor_lt, div_lt_iff₀ hw]
    exact_mod_cast hlo
  · have h1 : ((k : Int) - 2) < ⌈(D : ℚ) / wait⌉ := by
      rw [Int.lt_ceil, lt_div_iff₀ hw]
      have : (((k : Int) - 2 : Int) : ℚ) * wait < ((k : Int) - 1 : Int) * wait := by
        apply mul_lt_mul_of_pos_right _ hw
        push_cast
        linarith
      calc (((k : Int) - 2 : Int) : ℚ) * wait < ((k : Int) - 1 : Int) * wait := this
        _ ≤ D := by exact_mod_cast hhi
    omega

theorem iterate_bounds (wait : Int) (hwait : 0 ≤ wait) (k : Nat) (d : Int) :
    ∀ x ∈ List.iterate (fun t => t + wait) d k, d ≤ x ∧ x ≤ d + ((k : Int) - 1) * wait := by
  induction k generalizing d with
  | zero => intro x hx; simp [List.iterate] at hx
  | succ n ih =>
    intro x hx
    rw [List.iterate, List.mem_cons] at hx
    rcases hx with rfl | hx
    · constructor
      · exact le_refl _
      · push_cast
        nlinarith
    · obtain ⟨h1, h2⟩ := ih (d + wait) x hx
      constructor
      · omega
      · push_cast
        linarith

theorem throttle_rounds_log (wait : Int) (s : ThrottleState) (d : Int)
    (rs : List (List Int)) (hrun : s.running = true) (hcnt : s.invokedCount = 0)
    (htim : s.timer = some d) (hcont : ∀ r ∈ rs, 1 ≤ r.length ∧ r.length < uint64Size) :
    Throttle.log (throttleOptions none) wait s (Throttle.rounds wait d rs)
      = List.iterate (fun t => t + wait) d rs.length := by
  induction rs generalizing s d with
  | nil => rfl
  | cons r rs ih =>
    obtain ⟨hr1, hr2⟩ := hcont r (List.mem_cons_self _ _)
    have hlt : s.invokedCount < uint64Size := by rw [hcnt]; decide
    obtain ⟨b1, b2, b3, b4⟩ := throttle_burst (throttleOptions none) wait s r hrun hlt
    rw [hcnt, Nat.zero_add, Nat.mod_eq_of_lt hr2] at b3
    rw [htim] at b2
    have hne : (Throttle.exec (throttleOptions none) wait s
        (Throttle.triggers r)).invokedCount ≠ 0 := by rw [b3]; omega
    have hdue : timerReady
        (Throttle.exec (throttleOptions none) wait s (Throttle.triggers r)).timer d = true := by
      rw [b2]; simp [timerReady]
    have hbeat : Throttle.step (throttleOptions none) wait
        (Throttle.exec (throttleOptions none) wait s (Throttle.triggers r)) d .timer
        = (⟨(Throttle.exec (throttleOptions none) wait s (Throttle.triggers r)).lastInvoked, 0,
            some (d + wait), true⟩, 1) := by
      simp only [Throttle.step, b1, hdue, if_true, Throttle.onTimer, hne, if_false]
      rfl
    show Throttle.log (throttleOptions none) wait s
        (Throttle.triggers r ++ (d, .timer) :: Throttle.rounds wait (d + wait) rs)
      = d :: List.iterate (fun t => t + wait) (d + wait) rs.length
    rw [throttle_log_append, b4 rfl, List.nil_append]
    show List.replicate (Throttle.step (throttleOptions none) wait
          (Throttle.exec (throttleOptions none) wait s (Throttle.triggers r)) d .timer).2 d
        ++ Throttle.log (throttleOptions none) wait
          (Throttle.step (throttleOptions none) wait
            (Throttle.exec (throttleOptions none) wait s (Throttle.triggers r)) d .timer).1
          (Throttle.rounds wait (d + wait) rs) = _
    rw [hbeat]
    show List.replicate 1 d ++ Throttle.log (throttleOptions none) wait
        ⟨(Throttle.exec (throttleOptions none) wait s (Throttle.triggers r)).lastInvoked, 0,
          some (d + wait), true⟩ (Throttle.rounds wait (d + wait) rs) = _
    rw [ih ⟨(Throttle.exec (throttleOptions none) wait s (Throttle.triggers r)).lastInvoked, 0,
      some (d + wait), true⟩ (d + wait) rfl rfl rfl
      (fun q hq => hcont q (List.mem_cons_of_mem _ hq))]
    rfl

theorem debounce_owed_step (o : DebounceOptions) (wait : Int) (s : DebounceState)
    (cur now : Int) (acc : Option Int) (e : DebounceEvent)
    (he : e = .invoke ∨ e = .maxTimer) (hcur : cur ≤ now) (hrun : s.running = true)
    (hlt : e = .invoke → s.invokedCount + 1 < uint64Size)
    (hacc : acc = none ↔ s.invokedCount = 0)
    (hd : ∃ d, s.maxTimer = some d ∧ (acc = none → d ≤ cur + o.MaxWait) ∧
      (∀ r, acc = some r → d ≤ r + o.MaxWait)) :
    (Debounce.step o wait s now e).1.running = true ∧
    (Debounce.step o wait s now e).1.invokedCount
      = s.invokedCount + (if e = .invoke then 1 else 0) ∧
    ((if 0 < (Debounce.step o wait s now e).2 then some now
        else if e = DebounceEvent.invoke ∧ s.running = true ∧ acc = none then some now
        else acc) = none ↔ (Debounce.step o wait s now e).1.invokedCount = 0) ∧
    ∃ d, (Debounce.step o wait s now e).1.maxTimer = some d ∧
      ((if 0 < (Debounce.step o wait s now e).2 then some now
        else if e = DebounceEvent.invoke ∧ s.running = true ∧ acc = none then some now
        else acc) = none → d ≤ now + o.MaxWait) ∧
      (∀ r, (if 0 < (Debounce.step o wait s now e).2 then some now
        else if e = DebounceEvent.invoke ∧ s.running = true ∧ acc = none then some now
        else acc) = some r → d ≤ r + o.MaxWait) := by
  obtain ⟨d, hd1, hd2, hd3⟩ := hd
  rcases he with he | he
  · subst he
    have hm : (s.invokedCount + 1) % uint64Size = s.invokedCount + 1 :=
      Nat.mod_eq_of_lt (hlt rfl)
    cases hac : acc with
    | none =>
      have h2 := hd2 hac
      simp only [Debounce.step, hrun, if_true, Debounce.onInvoke, hm]
      split_ifs <;> simp_all <;> omega
    | some r0 =>
      have h3 := hd3 r0 hac
      simp only [Debounce.step, hrun, if_true, Debounce.onInvoke, hm]
      split_ifs <;> simp_all
  · subst he
    cases hr : timerReady s.maxTimer now
    · have hstep : Debounce.step o wait s now .maxTimer = (s, 0) := by
        simp [Debounce.step, hrun, hr]
      rw [hstep]
      simp only [lt_irrefl, if_false, reduceCtorEq, false_and, add_zero]
      exact ⟨hrun, trivial, hacc, d, hd1, fun h => by have := hd2 h; omega, hd3⟩
    · by_cases h0 : s.invokedCount = 0
      · have hn : acc = none := hacc.mpr h0
        simp [Debounce.step, hrun, hr, Debounce.onMaxTimer, h0, hn]
      · have hpos : 0 < s.invokedCount := Nat.pos_of_ne_zero h0
        simp [Debounce.step, hrun, hr, Debounce.onMaxTimer, hpos, h0]

theorem debounce_ceiling_due (o : DebounceOptions) (wait : Int) (s : DebounceState)
    (cur : Int) (acc : Option Int) (es : List (Int × DebounceEvent))
    (hev : ∀ p ∈ es, p.2 = .invoke ∨ p.2 = .maxTimer)
    (hmono : List.Chain (fun a b => a ≤ b) cur (es.map Prod.fst))
    (hrun : s.running = true)
    (hlt : s.invokedCount + Debounce.triggerCount es < uint64Size)
    (hacc : acc = none ↔ s.invokedCount = 0)
    (hd : ∃ d, s.maxTimer = some d ∧ (acc = none → d ≤ cur + o.MaxWait) ∧
      (∀ r, acc = some r → d ≤ r + o.MaxWait)) :
    (Debounce.exec o wait s es).running = true ∧
    (Debounce.owedFrom o wait s acc es = none
      ↔ (Debounce.exec o wait s es).invokedCount = 0) ∧
    ∃ d, (Debounce.exec o wait s es).maxTimer = some d ∧
      ∀ r, Debounce.owedFrom o wait s acc es = some r → d ≤ r + o.MaxWait := by
  induction es generalizing s cur acc with
  | nil =>
    obtain ⟨d, h1, _, h3⟩ := hd
    exact ⟨hrun, hacc, d, h1, h3⟩
  | cons p es ih =>
    obtain ⟨now, e⟩ := p
    have hev2 : ∀ q ∈ es, q.2 = DebounceEvent.invoke ∨ q.2 = .maxTimer :=
      fun q hq => hev q (List.mem_cons_of_mem _ hq)
    simp only [List.map_cons, List.chain_cons] at hmono
    obtain ⟨hcur, hmono2⟩ := hmono
    have he := hev (now, e) (List.mem_cons_self _ _)
    simp only at he
    have htc : Debounce.triggerCount ((now, e) :: es)
        = Debounce.triggerCount es + (if e = .invoke then 1 else 0) := by
      by_cases h : e = .invoke <;> simp [Debounce.triggerCount, h]
    rw [htc] at hlt
    have hlt1 : e = .invoke → s.invokedCount + 1 < uint64Size := by
      intro h
      rw [if_pos h] at hlt
      omega
    obtain ⟨s1, s2, s3, s4⟩ := debounce_owed_step o wait s cur now acc e he hcur hrun hlt1
      hacc hd
    exact ih (Debounce.step o wait s now e).1 now _ hev2 hmono2 s1
      (by rw [s2]; omega) s3 s4

/-! ## Claims about single steps -/

/-- C8. Throttle trigger step: in every state in which the goroutine is running, for every
time `now` and option setting, accepting a trigger performs `invokedCount++` (a `uint64`
increment: plus one modulo `2 ^ 64`, which is exactly plus one below the maximum) and
leaves the heartbeat alone; if `lastInvoked` is set and `now - lastInvoked < wait`,
`lastInvoked` is unchanged and nothing is dispatched; otherwise `lastInvoked` becomes `now`
and the callback is dispatched exactly once if `Leading` and not at all otherwise. -/
theorem throttle_trigger_step (o : ThrottleOptions) (wait now : Int) (s : ThrottleState)
    (hrun : s.running = true) :
    (Throttle.step o wait s now .invoke).1.invokedCount
        = (s.invokedCount + 1) % uint64Size ∧
    (s.invokedCount + 1 < uint64Size →
      (Throttle.step o wait s now .invoke).1.invokedCount = s.invokedCount + 1) ∧
    (Throttle.step o wait s now .invoke).1.timer = s.timer ∧
    (Throttle.step o wait s now .invoke).1.running = true ∧
    ((∃ t, s.lastInvoked = some t ∧ now - t < wait) →
      (Throttle.step o wait s now .invoke).1.lastInvoked = s.lastInvoked ∧
      (Throttle.step o wait s now .invoke).2 = 0) ∧
    ((¬ ∃ t, s.lastInvoked = some t ∧ now - t < wait) →
      (Throttle.step o wait s now .invoke).1.lastInvoked = some now ∧
      (o.Leading = true → (Throttle.step o wait s now .invoke).2 = 1) ∧
      (o.Leading = false → (Throttle.step o wait s now .invoke).2 = 0)) := by
  have hw := insideWindow_eq_true s.lastInvoked now wait
  cases hin : insideWindow s.lastInvoked now wait
  · have hnex : ¬ ∃ t, s.lastInvoked = some t ∧ now - t < wait := by
      intro h
      rw [hw.mpr h] at hin
      cases hin
    simp only [Throttle.step, hrun, Throttle.onInvoke, hin, if_true, Bool.false_eq_true,
      if_false]
    refine ⟨trivial, ?_, trivial, trivial, ?_, ?_⟩
    · intro hlt; exact Nat.mod_eq_of_lt hlt
    · intro hex; exact absurd hex hnex
    · intro _
      refine ⟨trivial, ?_, ?_⟩
      · intro hl; simp [hl]
      · intro hl; simp [hl]
  · have hex : ∃ t, s.lastInvoked = some t ∧ now - t < wait := hw.mp hin
    simp only [Throttle.step, hrun, Throttle.onInvoke, hin, if_true]
    refine ⟨trivial, ?_, trivial, trivial, ?_, ?_⟩
    · intro hlt; exact Nat.mod_eq_of_lt hlt
    · intro _; exact ⟨trivial, trivial⟩
    · intro hne; exact absurd hex hne

/-- Witness for C8: a fresh throttle with `Leading` set accepts a trigger at time 5. -/
theorem throttle_trigger_step_witness :
    (Throttle.step ⟨true, true⟩ 10 (Throttle.init 10 0) 5 .invoke).1.invokedCount = 1 ∧
    (Throttle.step ⟨true, true⟩ 10 (Throttle.init 10 0) 5 .invoke).1.lastInvoked = some 5 ∧
    (Throttle.step ⟨true, true⟩ 10 (Throttle.init 10 0) 5 .invoke).2 = 1 :=
  have h := throttle_trigger_step ⟨true, true⟩ 10 5 (Throttle.init 10 0) rfl
  ⟨h.2.1 (by decide), (h.2.2.2.2.2 (by decide)).1, (h.2.2.2.2.2 (by decide)).2.1 rfl⟩

/-- C9. Throttle heartbeat step: in every running state whose heartbeat is due at `now`,
for every option setting, the heartbeat is re-armed for `now + wait`, `lastInvoked` is
unchanged, and (1) with `invokedCount = 0` nothing changes and nothing is dispatched;
(2) else with `Trailing` false the count becomes 0 and nothing is dispatched; (3) else with
`Leading` true a count above 1 is cleared with exactly one dispatch while a count of 1 stays
1 without dispatch; (4) else (trailing only) the count is cleared with exactly one
dispatch. -/
theorem throttle_heartbeat_step (o : ThrottleOptions) (wait now : Int) (s : ThrottleState)
    (hrun : s.running = true) (hdue : timerReady s.timer now = true) :
    (Throttle.step o wait s now .timer).1.timer = some (now + wait) ∧
    (Throttle.step o wait s now .timer).1.lastInvoked = s.lastInvoked ∧
    (Throttle.step o wait s now .timer).1.running = true ∧
    (s.invokedCount = 0 →
      (Throttle.step o wait s now .timer).1.invokedCount = 0 ∧
      (Throttle.step o wait s now .timer).2 = 0) ∧
    (s.invokedCount ≠ 0 → o.Trailing = false →
      (Throttle.step o wait s now .timer).1.invokedCount = 0 ∧
      (Throttle.step o wait s now .timer).2 = 0) ∧
    (s.invokedCount ≠ 0 → o.Trailing = true → o.Leading = true → 1 < s.invokedCount →
      (Throttle.step o wait s now .timer).1.invokedCount = 0 ∧
      (Throttle.step o wait s now .timer).2 = 1) ∧
    (s.invokedCount ≠ 0 → o.Trailing = true → o.Leading = true → s.invokedCount = 1 →
      (Throttle.step o wait s now .timer).1.invokedCount = 1 ∧
      (Throttle.step o wait s now .timer).2 = 0) ∧
    (s.invokedCount ≠ 0 → o.Trailing = true → o.Leading = false →
      (Throttle.step o wait s now .timer).1.invokedCount = 0 ∧
      (Throttle.step o wait s now .timer).2 = 1) := by
  simp only [Throttle.step, hrun, hdue, if_true, Throttle.onTimer]
  refine ⟨?_, ?_, ?_, ?_, ?_, ?_, ?_, ?_⟩
  · split_ifs <;> rfl
  · split_ifs <;> rfl
  · split_ifs <;> rfl
  · intro h0; simp [h0]
  · intro h0 ht; simp [h0, ht]
  · intro h0 ht hl h1; simp [h0, ht, hl, h1]
  · intro h0 ht hl h1; simp [ht, hl, h1]
  · intro h0 ht hl; simp [h0, ht, hl]

/-- Witness for C9: leading and trailing throttle, two pending triggers, heartbeat due. -/
theorem throttle_heartbeat_step_witness :
    (Throttle.step ⟨true, true⟩ 10 ⟨some 3, 2, some 10, true⟩ 10 .timer).1.invokedCount = 0 ∧
    (Throttle.step ⟨true, true⟩ 10 ⟨some 3, 2, some 10, true⟩ 10 .timer).2 = 1 :=
  (throttle_heartbeat_step ⟨true, true⟩ 10 10 ⟨some 3, 2, some 10, true⟩ rfl
    (by decide)).2.2.2.2.2.1 (by decide) rfl rfl (by decide)

/-- C10. Debounce trigger step: in every running state, for every time `now` and option
setting, accepting a trigger performs `invokedCount++` (a `uint64` increment: plus one
modulo `2 ^ 64`, exactly plus one below the maximum) and re-arms the quiet-period timer
for `now + wait`; if `lastInvoked` is unset or `now - lastInvoked >= wait`, `lastInvoked`
becomes `now` and, when `Leading`, the ceiling timer is re-armed for `now + MaxWait` with
exactly one dispatch, while without `Leading` the ceiling timer is unchanged and nothing
is dispatched; otherwise `lastInvoked` and the ceiling timer are unchanged and nothing is
dispatched. -/
theorem debounce_trigger_step (o : DebounceOptions) (wait now : Int) (s : DebounceState)
    (hrun : s.running = true) :
    (Debounce.step o wait s now .invoke).1.invokedCount
        = (s.invokedCount + 1) % uint64Size ∧
    (s.invokedCount + 1 < uint64Size →
      (Debounce.step o wait s now .invoke).1.invokedCount = s.invokedCount + 1) ∧
    (Debounce.step o wait s now .invoke).1.timer = some (now + wait) ∧
    (Debounce.step o wait s now .invoke).1.running = true ∧
    ((s.lastInvoked = none ∨ ∃ t, s.lastInvoked = some t ∧ wait ≤ now - t) →
      (Debounce.step o wait s now .invoke).1.lastInvoked = some now ∧
      (o.Leading = true →
        (Debounce.step o wait s now .invoke).1.maxTimer = some (now + o.MaxWait) ∧
        (Debounce.step o wait s now .invoke).2 = 1) ∧
      (o.Leading = false →
        (Debounce.step o wait s now .invoke).1.maxTimer = s.maxTimer ∧
        (Debounce.step o wait s now .invoke).2 = 0)) ∧
    ((¬ (s.lastInvoked = none ∨ ∃ t, s.lastInvoked = some t ∧ wait ≤ now - t)) →
      (Debounce.step o wait s now .invoke).1.lastInvoked = s.lastInvoked ∧
      (Debounce.step o wait s now .invoke).1.maxTimer = s.maxTimer ∧
      (Debounce.step o wait s now .invoke).2 = 0) := by
  have hw := insideWindow_eq_true s.lastInvoked now wait
  cases hin : insideWindow s.lastInvoked now wait
  · have hopen : s.lastInvoked = none ∨ ∃ t, s.lastInvoked = some t ∧ wait ≤ now - t := by
      cases hl : s.lastInvoked with
      | none => exact Or.inl rfl
      | some t =>
        right
        refine ⟨t, rfl, ?_⟩
        by_contra hlt
        rw [hw.mpr ⟨t, hl, lt_of_not_le hlt⟩] at hin
        cases hin
    simp only [Debounce.step, hrun, Debounce.onInvoke, hin, if_true, Bool.false_eq_true,
      if_false]
    refine ⟨?_, ?_, ?_, ?_, ?_, ?_⟩
    · split_ifs <;> rfl
    · intro hlt; split_ifs <;> exact Nat.mod_eq_of_lt hlt
    · split_ifs <;> rfl
    · split_ifs <;> rfl
    · intro _
      refine ⟨?_, ?_, ?_⟩
      · split_ifs <;> rfl
      · intro hl; simp [hl]
      · intro hl; simp [hl]
    · intro hne; exact absurd hopen hne
  · obtain ⟨t, hl, hlt⟩ := hw.mp hin
    have hclosed : ¬ (s.lastInvoked = none ∨ ∃ t, s.lastInvoked = some t ∧ wait ≤ now - t) := by
      rintro (hn | ⟨u, hu, hge⟩)
      · rw [hn] at hl; cases hl
      · rw [hl] at hu
        cases hu
        exact absurd hlt (not_lt.mpr hge)
    simp only [Debounce.step, hrun, Debounce.onInvoke, hin, if_true]
    refine ⟨trivial, ?_, trivial, trivial, ?_, ?_⟩
    · intro h; exact Nat.mod_eq_of_lt h
    · intro hopen; exact absurd hopen hclosed
    · intro _; exact ⟨trivial, trivial, trivial⟩

/-- Witness for C10: a fresh leading debounce accepts its first trigger at time 5. -/
theorem debounce_trigger_step_witness :
    (Debounce.step ⟨⟨true, true⟩, 30⟩ 10 (Debounce.init ⟨⟨true, true⟩, 30⟩ 10 0) 5
        .invoke).1.timer = some (5 + 10) ∧
    (Debounce.step ⟨⟨true, true⟩, 30⟩ 10 (Debounce.init ⟨⟨true, true⟩, 30⟩ 10 0) 5
        .invoke).1.lastInvoked = some 5 ∧
    (Debounce.step ⟨⟨true, true⟩, 30⟩ 10 (Debounce.init ⟨⟨true, true⟩, 30⟩ 10 0) 5
        .invoke).2 = 1 :=
  have h := debounce_trigger_step ⟨⟨true, true⟩, 30⟩ 10 5
    (Debounce.init ⟨⟨true, true⟩, 30⟩ 10 0) rfl
  ⟨h.2.2.1, (h.2.2.2.2.1 (Or.inl rfl)).1, ((h.2.2.2.2.1 (Or.inl rfl)).2.1 rfl).2⟩

/-- C6. Debounce ceiling step, for every option setting: in every running state whose
ceiling timer is due, the `maxTimer` case dispatches exactly once if `invokedCount > 0`
and not at all if it is 0, leaves `invokedCount`, `lastInvoked` and the quiet-period timer
unchanged, and re-arms the ceiling timer for `now + MaxWait`.  Hence in every run from
construction made of triggers and ceiling firings only (continuous triggering: the
quiet-period timer never fires), once a trigger has been accepted (fewer than `2 ^ 64`
of them, the range of the counter) the ceiling timer is still armed and every ceiling
firing dispatches exactly once.  Moreover, under a monotone clock, the ceiling deadline of
such a run is never later than `MaxWait` after the latest invocation (after the first
trigger as long as nothing has been invoked): a trigger that moves the deadline, as a
leading burst opening does, is itself an invocation.  So from `MaxWait` after the latest
invocation on the ceiling timer is due and its firing invokes, and an iteration taken
no later than the ceiling deadline is at most `MaxWait` after the latest invocation: with
the timer served when due, no window of `MaxWait` goes by without an invocation. -/
theorem debounce_ceiling_step (o : DebounceOptions) (wait : Int) :
    (∀ (s : DebounceState) (now : Int), s.running = true →
      timerReady s.maxTimer now = true →
      (0 < s.invokedCount → (Debounce.step o wait s now .maxTimer).2 = 1) ∧
      (s.invokedCount = 0 → (Debounce.step o wait s now .maxTimer).2 = 0) ∧
      (Debounce.step o wait s now .maxTimer).1.invokedCount = s.invokedCount ∧
      (Debounce.step o wait s now .maxTimer).1.lastInvoked = s.lastInvoked ∧
      (Debounce.step o wait s now .maxTimer).1.timer = s.timer ∧
      (Debounce.step o wait s now .maxTimer).1.maxTimer = some (now + o.MaxWait) ∧
      (Debounce.step o wait s now .maxTimer).1.running = true) ∧
    (∀ (t0 : Int) (es : List (Int × DebounceEvent)) (now : Int),
      (∀ p ∈ es, p.2 = .invoke ∨ p.2 = .maxTimer) →
      0 < Debounce.triggerCount es → Debounce.triggerCount es < uint64Size →
      (Debounce.exec o wait (Debounce.init o wait t0) es).maxTimer ≠ none ∧
      (Debounce.exec o wait (Debounce.init o wait t0) es).invokedCount
        = Debounce.triggerCount es ∧
      (timerReady (Debounce.exec o wait (Debounce.init o wait t0) es).maxTimer now = true →
        (Debounce.step o wait (Debounce.exec o wait (Debounce.init o wait t0) es) now
          .maxTimer).2 = 1)) ∧
    (∀ (t0 : Int) (es : List (Int × DebounceEvent)),
      (∀ p ∈ es, p.2 = .invoke ∨ p.2 = .maxTimer) →
      List.Chain (fun a b => a ≤ b) t0 (es.map Prod.fst) →
      0 < Debounce.triggerCount es → Debounce.triggerCount es < uint64Size →
      ∃ r d, Debounce.owedFrom o wait (Debounce.init o wait t0) none es = some r ∧
        (Debounce.exec o wait (Debounce.init o wait t0) es).maxTimer = some d ∧
        d ≤ r + o.MaxWait ∧
        (∀ now, now ≤ d → now ≤ r + o.MaxWait) ∧
        ∀ now, r + o.MaxWait ≤ now →
          timerReady (Debounce.exec o wait (Debounce.init o wait t0) es).maxTimer now = true ∧
          (Debounce.step o wait (Debounce.exec o wait (Debounce.init o wait t0) es) now
            .maxTimer).2 = 1) := by
  have hstep : ∀ (s : DebounceState) (now : Int), s.running = true →
      timerReady s.maxTimer now = true →
      (0 < s.invokedCount → (Debounce.step o wait s now .maxTimer).2 = 1) ∧
      (s.invokedCount = 0 → (Debounce.step o wait s now .maxTimer).2 = 0) ∧
      (Debounce.step o wait s now .maxTimer).1.invokedCount = s.invokedCount ∧
      (Debounce.step o wait s now .maxTimer).1.lastInvoked = s.lastInvoked ∧
      (Debounce.step o wait s now .maxTimer).1.timer = s.timer ∧
      (Debounce.step o wait s now .maxTimer).1.maxTimer = some (now + o.MaxWait) ∧
      (Debounce.step o wait s now .maxTimer).1.running = true := by
    intro s now hrun hdue
    simp only [Debounce.step, hrun, hdue, if_true, Debounce.onMaxTimer]
    refine ⟨?_, ?_, trivial, trivial, trivial, trivial, trivial⟩
    · intro h; simp [h]
    · intro h; simp [h]
  have hcount : ∀ (t0 : Int) (es : List (Int × DebounceEvent)),
      (∀ p ∈ es, p.2 = .invoke ∨ p.2 = .maxTimer) →
      Debounce.triggerCount es < uint64Size →
      (Debounce.exec o wait (Debounce.init o wait t0) es).running = true ∧
      (Debounce.exec o wait (Debounce.init o wait t0) es).maxTimer ≠ none ∧
      (Debounce.exec o wait (Debounce.init o wait t0) es).invokedCount
        = Debounce.triggerCount es := by
    intro t0 es hev hlt
    have hev2 : ∀ p ∈ es, p.2 ≠ DebounceEvent.done ∧ (p.2 = .timer → o.Trailing = true) := by
      intro p hp
      rcases hev p hp with h | h <;> simp [h]
    obtain ⟨hrun, hmax, hcnt⟩ := debounce_count o wait (Debounce.init o wait t0) es rfl
      (by simp [Debounce.init, uint64Size]) hev2
    refine ⟨hrun, hmax (by simp [Debounce.init]), ?_⟩
    rw [hcnt]
    simp only [Debounce.init, Nat.zero_add]
    exact Nat.mod_eq_of_lt hlt
  refine ⟨hstep, ?_, ?_⟩
  · intro t0 es now hev hpos hlt
    obtain ⟨hrun, hmax, hcnt2⟩ := hcount t0 es hev hlt
    refine ⟨hmax, hcnt2, ?_⟩
    intro hdue
    exact (hstep _ now hrun hdue).1 (by rw [hcnt2]; exact hpos)
  · intro t0 es hev hmono hpos hlt
    obtain ⟨hrun, _, hcnt2⟩ := hcount t0 es hev hlt
    obtain ⟨_, hiff, d, hd, hbound⟩ := debounce_ceiling_due o wait (Debounce.init o wait t0)
      t0 none es hev hmono rfl (by simpa [Debounce.init] using hlt)
      ⟨fun _ => rfl, fun _ => rfl⟩
      ⟨t0 + o.MaxWait, rfl, fun _ => le_refl _, fun r hr => by cases hr⟩
    cases hr : Debounce.owedFrom o wait (Debounce.init o wait t0) none es with
    | none =>
      have := hiff.mp hr
      rw [hcnt2] at this
      omega
    | some r =>
      refine ⟨r, d, rfl, hd, hbound r hr, fun now hnow => le_trans hnow (hbound r hr), ?_⟩
      intro now hnow
      have hdue : timerReady
          (Debounce.exec o wait (Debounce.init o wait t0) es).maxTimer now = true := by
        rw [hd]
        have := hbound r hr
        simp only [timerReady, decide_eq_true_eq]
        omega
      exact ⟨hdue, (hstep _ now hrun hdue).1 (by rw [hcnt2]; exact hpos)⟩

/-- Witness for C6: `MaxWait = 30`, `wait = 10`, triggers at 0, 9, 18 and 27 keep the
quiet-period timer from firing; trailing only, the ceiling timer fires at 30 and
dispatches; with `Leading` set as well, the bursts opened at 0 and 18 are invocations and
the ceiling is due by `MaxWait` after the latest of them. -/
theorem debounce_ceiling_step_witness :
    (Debounce.step ⟨⟨false, true⟩, 30⟩ 10
      (Debounce.exec ⟨⟨false, true⟩, 30⟩ 10 (Debounce.init ⟨⟨false, true⟩, 30⟩ 10 0)
        [(0, .invoke), (9, .invoke), (18, .invoke), (27, .invoke)]) 30 .maxTimer).2 = 1 ∧
    ∃ r d, Debounce.owedFrom ⟨⟨true, true⟩, 30⟩ 10 (Debounce.init ⟨⟨true, true⟩, 30⟩ 10 0)
        none [(0, .invoke), (9, .invoke), (18, .invoke), (27, .invoke)] = some r ∧
      (Debounce.exec ⟨⟨true, true⟩, 30⟩ 10 (Debounce.init ⟨⟨true, true⟩, 30⟩ 10 0)
        [(0, .invoke), (9, .invoke), (18, .invoke), (27, .invoke)]).maxTimer = some d ∧
      d ≤ r + (30 : Int) :=
  ⟨((debounce_ceiling_step ⟨⟨false, true⟩, 30⟩ 10).2.1 0
      [(0, .invoke), (9, .invoke), (18, .invoke), (27, .invoke)] 30
      (by decide) (by decide) (by decide)).2.2 (by decide),
    let ⟨r, d, h1, h2, h3, _⟩ := (debounce_ceiling_step ⟨⟨true, true⟩, 30⟩ 10).2.2 0
      [(0, .invoke), (9, .invoke), (18, .invoke), (27, .invoke)]
      (by decide) (by simp) (by decide) (by decide)
    ⟨r, d, h1, h2, h3⟩⟩

/-- C11. Debounce quiet-period step: in every running state whose quiet-period timer is
due, for every option setting, `lastInvoked` and the ceiling timer are unchanged and the
quiet-period timer is left disarmed (not re-armed); (1) with `Trailing` false the counter
becomes 0 and nothing is dispatched; (2) else with `Leading` true the counter is unchanged
and the callback is dispatched exactly once when the counter is above 1, not at all
otherwise; (3) else (trailing only) the counter is unchanged and the callback is
dispatched exactly once when the counter is positive, not at all when it is 0. -/
theorem debounce_quiet_step (o : DebounceOptions) (wait now : Int) (s : DebounceState)
    (hrun : s.running = true) (hdue : timerReady s.timer now = true) :
    (Debounce.step o wait s now .timer).1.lastInvoked = s.lastInvoked ∧
    (Debounce.step o wait s now .timer).1.timer = none ∧
    (Debounce.step o wait s now .timer).1.maxTimer = s.maxTimer ∧
    (Debounce.step o wait s now .timer).1.running = true ∧
    (o.Trailing = false →
      (Debounce.step o wait s now .timer).1.invokedCount = 0 ∧
      (Debounce.step o wait s now .timer).2 = 0) ∧
    (o.Trailing = true → o.Leading = true →
      (Debounce.step o wait s now .timer).1.invokedCount = s.invokedCount ∧
      (1 < s.invokedCount → (Debounce.step o wait s now .timer).2 = 1) ∧
      (s.invokedCount ≤ 1 → (Debounce.step o wait s now .timer).2 = 0)) ∧
    (o.Trailing = true → o.Leading = false →
      (Debounce.step o wait s now .timer).1.invokedCount = s.invokedCount ∧
      (0 < s.invokedCount → (Debounce.step o wait s now .timer).2 = 1) ∧
      (s.invokedCount = 0 → (Debounce.step o wait s now .timer).2 = 0)) := by
  simp only [Debounce.step, hrun, hdue, if_true, Debounce.onTimer]
  refine ⟨?_, ?_, ?_, ?_, ?_, ?_, ?_⟩
  · split_ifs <;> rfl
  · split_ifs <;> rfl
  · split_ifs <;> rfl
  · split_ifs <;> rfl
  · intro ht; simp [ht]
  · intro ht hl
    refine ⟨by simp only [ht, hl]; split_ifs <;> simp_all, ?_, ?_⟩
    · intro h1; simp [ht, hl, h1]
    · intro h1; simp [ht, hl, Nat.not_lt.mpr h1]
  · intro ht hl
    refine ⟨by simp [ht, hl], ?_, ?_⟩
    · intro h1; simp [ht, hl, h1]
    · intro h1; simp [ht, hl, h1]

/-- Witness for C11: leading and trailing debounce with three accepted triggers, quiet
timer due at 13. -/
theorem debounce_quiet_step_witness :
    (Debounce.step ⟨⟨true, true⟩, maxInt64⟩ 10
      ⟨some 0, 3, some 13, some (0 + maxInt64), true⟩ 13 .timer).2 = 1 :=
  ((debounce_quiet_step ⟨⟨true, true⟩, maxInt64⟩ 10 13
    ⟨some 0, 3, some 13, some (0 + maxInt64), true⟩ rfl (by decide)).2.2.2.2.2.1 rfl rfl).2.1
    (by decide)

/-- C13. Counter invariant, for both actors: on a counter in the `uint64` range, every
transition (trigger, heartbeat or quiet-period timer, ceiling timer, cancellation, taken
or not) leaves `invokedCount` unchanged, or increases it by exactly 1 (a trigger only), or
sets it to exactly 0; so a transition that lowers it lowers it to 0, and the counter stays
in the `uint64` range. -/
theorem pending_count_steps :
    (∀ (o : ThrottleOptions) (wait : Int) (s : ThrottleState) (now : Int)
        (e : ThrottleEvent), s.invokedCount < uint64Size →
      ((Throttle.step o wait s now e).1.invokedCount = s.invokedCount ∨
        (e = .invoke ∧
          (Throttle.step o wait s now e).1.invokedCount = s.invokedCount + 1) ∨
        (Throttle.step o wait s now e).1.invokedCount = 0) ∧
      ((Throttle.step o wait s now e).1.invokedCount < s.invokedCount →
        (Throttle.step o wait s now e).1.invokedCount = 0) ∧
      (Throttle.step o wait s now e).1.invokedCount < uint64Size) ∧
    (∀ (o : DebounceOptions) (wait : Int) (s : DebounceState) (now : Int)
        (e : DebounceEvent), s.invokedCount < uint64Size →
      ((Debounce.step o wait s now e).1.invokedCount = s.invokedCount ∨
        (e = .invoke ∧
          (Debounce.step o wait s now e).1.invokedCount = s.invokedCount + 1) ∨
        (Debounce.step o wait s now e).1.invokedCount = 0) ∧
      ((Debounce.step o wait s now e).1.invokedCount < s.invokedCount →
        (Debounce.step o wait s now e).1.invokedCount = 0) ∧
      (Debounce.step o wait s now e).1.invokedCount < uint64Size) := by
  have key : ∀ (c c' : Nat) (inv : Prop), c < uint64Size →
      (c' = c ∨ (inv ∧ c' = (c + 1) % uint64Size) ∨ c' = 0) →
      (c' = c ∨ (inv ∧ c' = c + 1) ∨ c' = 0) ∧ (c' < c → c' = 0) ∧ c' < uint64Size := by
    intro c c' inv hc h
    have hpos : 0 < uint64Size := by decide
    rcases h with h | ⟨hi, h⟩ | h
    · subst h
      exact ⟨Or.inl rfl, fun hlt => absurd hlt (lt_irrefl _), hc⟩
    · rcases uint64_succ_cases c hc with h1 | h1
      · rw [h1] at h
        refine ⟨Or.inr (Or.inl ⟨hi, h⟩), fun hlt => by omega, ?_⟩
        rw [h, ← h1]
        exact Nat.mod_lt _ hpos
      · rw [h1] at h
        exact ⟨Or.inr (Or.inr h), fun _ => h, by rw [h]; exact hpos⟩
    · exact ⟨Or.inr (Or.inr h), fun _ => h, by rw [h]; exact hpos⟩
  constructor
  · intro o wait s now e hc
    exact key _ _ _ hc (throttle_step_count o wait s now e)
  · intro o wait s now e hc
    exact key _ _ _ hc (debounce_step_count o wait s now e)

/-- Witness for C13: a trigger accepted by a throttle with two pending triggers. -/
theorem pending_count_steps_witness :
    (Throttle.step ⟨false, true⟩ 10 ⟨some 0, 2, some 10, true⟩ 3 .invoke).1.invokedCount
      < uint64Size :=
  (pending_count_steps.1 ⟨false, true⟩ 10 ⟨some 0, 2, some 10, true⟩ 3 .invoke
    (by decide)).2.2

/-- C14. `lastInvoked` invariant, for both actors: it is unset in the initial state; in
every run from construction it is unset exactly when no trigger has been accepted; a
trigger accepted while it is unset sets it to `now`; a transition never unsets it; a
transition that changes it is an accepted trigger outside the window (a window-opening
trigger), which writes `now`; the timer and cancellation cases never write it. -/
theorem last_invoked_invariant :
    (∀ (o : ThrottleOptions) (wait : Int),
      (∀ t0, (Throttle.init wait t0).lastInvoked = none) ∧
      (∀ t0 es, (Throttle.exec o wait (Throttle.init wait t0) es).lastInvoked = none
        ↔ Throttle.accepted o wait (Throttle.init wait t0) es = 0) ∧
      (∀ s now, s.running = true → s.lastInvoked = none →
        (Throttle.step o wait s now .invoke).1.lastInvoked = some now) ∧
      (∀ s now e, s.lastInvoked ≠ none →
        (Throttle.step o wait s now e).1.lastInvoked ≠ none) ∧
      (∀ s now e, (Throttle.step o wait s now e).1.lastInvoked ≠ s.lastInvoked →
        e = .invoke ∧ s.running = true ∧ insideWindow s.lastInvoked now wait = false ∧
        (Throttle.step o wait s now e).1.lastInvoked = some now) ∧
      (∀ s now e, e ≠ .invoke →
        (Throttle.step o wait s now e).1.lastInvoked = s.lastInvoked)) ∧
    (∀ (o : DebounceOptions) (wait : Int),
      (∀ t0, (Debounce.init o wait t0).lastInvoked = none) ∧
      (∀ t0 es, (Debounce.exec o wait (Debounce.init o wait t0) es).lastInvoked = none
        ↔ Debounce.accepted o wait (Debounce.init o wait t0) es = 0) ∧
      (∀ s now, s.running = true → s.lastInvoked = none →
        (Debounce.step o wait s now .invoke).1.lastInvoked = some now) ∧
      (∀ s now e, s.lastInvoked ≠ none →
        (Debounce.step o wait s now e).1.lastInvoked ≠ none) ∧
      (∀ s now e, (Debounce.step o wait s now e).1.lastInvoked ≠ s.lastInvoked →
        e = .invoke ∧ s.running = true ∧ insideWindow s.lastInvoked now wait = false ∧
        (Debounce.step o wait s now e).1.lastInvoked = some now) ∧
      (∀ s now e, e ≠ .invoke →
        (Debounce.step o wait s now e).1.lastInvoked = s.lastInvoked)) := by
  constructor
  · intro o wait
    refine ⟨fun _ => rfl, ?_, ?_, ?_, ?_, ?_⟩
    · intro t0 es
      rw [throttle_last_unset_iff]
      simp [Throttle.init]
    · intro s now hr hl
      rcases ((throttle_step_last o wait s now .invoke).1 ⟨rfl, hr⟩).2 with ⟨hin, _⟩ | ⟨_, h⟩
      · rw [hl] at hin; cases hin
      · exact h
    · intro s now e hs
      obtain ⟨h1, h2⟩ := throttle_step_last o wait s now e
      by_cases hc : e = .invoke ∧ s.running = true
      · exact (h1 hc).1
      · rw [h2 hc]; exact hs
    · intro s now e hne
      obtain ⟨h1, h2⟩ := throttle_step_last o wait s now e
      by_cases hc : e = .invoke ∧ s.running = true
      · rcases (h1 hc).2 with ⟨_, h⟩ | ⟨hin, h⟩
        · exact absurd h hne
        · exact ⟨hc.1, hc.2, hin, h⟩
      · exact absurd (h2 hc) hne
    · intro s now e he
      exact (throttle_step_last o wait s now e).2 (fun hc => he hc.1)
  · intro o wait
    refine ⟨fun _ => rfl, ?_, ?_, ?_, ?_, ?_⟩
    · intro t0 es
      rw [debounce_last_unset_iff]
      simp [Debounce.init]
    · intro s now hr hl
      rcases ((debounce_step_last o wait s now .invoke).1 ⟨rfl, hr⟩).2 with ⟨hin, _⟩ | ⟨_, h⟩
      · rw [hl] at hin; cases hin
      · exact h
    · intro s now e hs
      obtain ⟨h1, h2⟩ := debounce_step_last o wait s now e
      by_cases hc : e = .invoke ∧ s.running = true
      · exact (h1 hc).1
      · rw [h2 hc]; exact hs
    · intro s now e hne
      obtain ⟨h1, h2⟩ := debounce_step_last o wait s now e
      by_cases hc : e = .invoke ∧ s.running = true
      · rcases (h1 hc).2 with ⟨_, h⟩ | ⟨hin, h⟩
        · exact absurd h hne
        · exact ⟨hc.1, hc.2, hin, h⟩
      · exact absurd (h2 hc) hne
    · intro s now e he
      exact (debounce_step_last o wait s now e).2 (fun hc => he hc.1)

/-- Witness for C14: the first trigger accepted by a fresh throttle at time 3 sets
`lastInvoked` to 3. -/
theorem last_invoked_invariant_witness :
    (Throttle.step ⟨false, true⟩ 10 (Throttle.init 10 0) 3 .invoke).1.lastInvoked = some 3 :=
  (last_invoked_invariant.1 ⟨false, true⟩ 10).2.2.1 (Throttle.init 10 0) 3 rfl rfl

/-! ## Windows and bursts -/

/-- C1. Throttle single window, default options (`options == nil`): take a running throttle
whose counter is 0 and whose heartbeat was armed at `t0` (construction, or the previous
heartbeat), and let `N` triggers be accepted before the next heartbeat, `1 ≤ N < 2 ^ 64`
(the range of the `uint64` counter).  No trigger step dispatches; the heartbeat deadline
stays `t0 + wait`, which is at most `wait` after the first trigger; the heartbeat received
at `h ≥ t0 + wait` dispatches exactly once and resets the counter to 0; a following
heartbeat `h2` without new trigger dispatches nothing: the dispatches of the whole run are
exactly `[h]`. -/
theorem throttle_single_window (wait t0 : Int) (s : ThrottleState) (ts : List Int)
    (h h2 : Int) (hrun : s.running = true) (hcnt : s.invokedCount = 0)
    (htim : s.timer = some (t0 + wait)) (hN : 1 ≤ ts.length)
    (hN64 : ts.length < uint64Size) (hfirst : ∀ t ∈ ts.head?, t0 ≤ t)
    (hh : t0 + wait ≤ h) :
    Throttle.log (throttleOptions none) wait s (Throttle.triggers ts) = [] ∧
    (∀ d ∈ (Throttle.exec (throttleOptions none) wait s (Throttle.triggers ts)).timer,
      ∀ t ∈ ts.head?, d - t ≤ wait) ∧
    (Throttle.step (throttleOptions none) wait
      (Throttle.exec (throttleOptions none) wait s (Throttle.triggers ts)) h .timer).2 = 1 ∧
    (Throttle.step (throttleOptions none) wait
      (Throttle.exec (throttleOptions none) wait s (Throttle.triggers ts)) h
        .timer).1.invokedCount = 0 ∧
    (Throttle.step (throttleOptions none) wait
      (Throttle.step (throttleOptions none) wait
        (Throttle.exec (throttleOptions none) wait s (Throttle.triggers ts)) h .timer).1 h2
          .timer).2 = 0 ∧
    Throttle.log (throttleOptions none) wait s
      (Throttle.triggers ts ++ [(h, .timer), (h2, .timer)]) = [h] := by
  have hlt : s.invokedCount < uint64Size := by rw [hcnt]; decide
  obtain ⟨b1, b2, b3, b4⟩ := throttle_burst (throttleOptions none) wait s ts hrun hlt
  have blog := b4 rfl
  rw [hcnt, Nat.zero_add, Nat.mod_eq_of_lt hN64] at b3
  rw [htim] at b2
  have hne : (Throttle.exec (throttleOptions none) wait s (Throttle.triggers ts)).invokedCount
      ≠ 0 := by rw [b3]; omega
  have hdue : timerReady
      (Throttle.exec (throttleOptions none) wait s (Throttle.triggers ts)).timer h = true := by
    rw [b2]; simpa [timerReady] using hh
  have hbeat : Throttle.step (throttleOptions none) wait
      (Throttle.exec (throttleOptions none) wait s (Throttle.triggers ts)) h .timer
      = (⟨(Throttle.exec (throttleOptions none) wait s (Throttle.triggers ts)).lastInvoked, 0,
          some (h + wait), true⟩, 1) := by
    simp only [Throttle.step, b1, hdue, if_true, Throttle.onTimer, hne, if_false]
    rfl
  have hbeat2 : ∀ (l : Option Int), (Throttle.step (throttleOptions none) wait
      ⟨l, 0, some (h + wait), true⟩ h2 .timer).2 = 0 := by
    intro l
    simp only [Throttle.step, if_true, Throttle.onTimer]
    split_ifs <;> rfl
  refine ⟨blog, ?_, ?_, ?_, ?_, ?_⟩
  · intro d hd t ht
    rw [b2] at hd
    cases hd
    have := hfirst t ht
    omega
  · rw [hbeat]
  · rw [hbeat]
  · rw [hbeat]; exact hbeat2 _
  · rw [throttle_log_append, blog, List.nil_append]
    simp only [Throttle.log, hbeat, hbeat2, List.replicate_zero, List.append_nil]
    rfl

/-- Witness for C1: `wait = 10`, construction at 0, triggers at 1, 2 and 3, heartbeats
at 10 and 20. -/
theorem throttle_single_window_witness :
    Throttle.log (throttleOptions none) 10 (Throttle.init 10 0)
      (Throttle.triggers [1, 2, 3] ++ [(10, .timer), (20, .timer)]) = [10] :=
  (throttle_single_window 10 0 (Throttle.init 10 0) [1, 2, 3] 10 20 rfl rfl rfl
    (by decide) (by decide) (by decide) (by decide)).2.2.2.2.2

/-- C2. Debounce quiescence, default options (`options == nil`: trailing only), runs in
which the ceiling timer does not fire.  (a) No trigger step dispatches.  (b) A trigger
accepted at `t` re-arms the quiet-period timer for `t + wait`, and the timer case cannot be
taken at any `now` with `now - t < wait`.  (c) In every run of trigger and quiet-timer
iterations from construction, an iteration that dispatches is a quiet-timer iteration
and its time is at least (time of the last trigger before it) `+ wait`.  (d) Once the last
trigger of a burst has been accepted at `tl` (fewer than `2 ^ 64` triggers accepted so
far, the range of the counter), the quiet timer received at `h ≥ tl + wait` dispatches
exactly once and later quiet-timer iterations dispatch nothing.  (e) A run of triggers
alone dispatches nothing. -/
theorem debounce_quiescence (wait : Int) :
    (∀ (s : DebounceState) (now : Int),
      (Debounce.step (debounceOptions none) wait s now .invoke).2 = 0) ∧
    (∀ (s : DebounceState) (t now : Int), s.running = true → now - t < wait →
      (Debounce.step (debounceOptions none) wait s t .invoke).1.timer = some (t + wait) ∧
      Debounce.step (debounceOptions none) wait
          (Debounce.step (debounceOptions none) wait s t .invoke).1 now .timer
        = ((Debounce.step (debounceOptions none) wait s t .invoke).1, 0)) ∧
    (∀ (t0 : Int) (pre : List (Int × DebounceEvent)) (now : Int) (e : DebounceEvent),
      (∀ p ∈ pre, p.2 = .invoke ∨ p.2 = .timer) → (e = .invoke ∨ e = .timer) →
      0 < (Debounce.step (debounceOptions none) wait
            (Debounce.exec (debounceOptions none) wait
              (Debounce.init (debounceOptions none) wait t0) pre) now e).2 →
      e = .timer ∧ ∃ t, Debounce.lastTrigger none pre = some t ∧ t + wait ≤ now) ∧
    (∀ (t0 : Int) (pre : List (Int × DebounceEvent)) (tl h : Int) (qs : List Int),
      (∀ p ∈ pre, p.2 = .invoke ∨ p.2 = .timer) →
      Debounce.triggerCount pre + 1 < uint64Size → tl + wait ≤ h →
      Debounce.log (debounceOptions none) wait (Debounce.init (debounceOptions none) wait t0)
          (pre ++ (tl, .invoke) :: (h, .timer) :: Debounce.quietEvents qs)
        = Debounce.log (debounceOptions none) wait
            (Debounce.init (debounceOptions none) wait t0) pre ++ [h]) ∧
    (∀ (t0 : Int) (ts : List Int),
      Debounce.log (debounceOptions none) wait (Debounce.init (debounceOptions none) wait t0)
        (Debounce.triggers ts) = []) := by
  have hA : ∀ (s : DebounceState) (now : Int),
      (Debounce.step (debounceOptions none) wait s now .invoke).2 = 0 := by
    intro s now
    cases hr : s.running
    · rw [debounce_step_stopped _ wait s now _ hr]
    · exact (debounce_step_invoke _ wait s now hr).2.2.2 rfl
  refine ⟨hA, ?_, ?_, ?_, ?_⟩
  · intro s t now hrun hlt
    obtain ⟨a1, a2, _, _⟩ := debounce_step_invoke (debounceOptions none) wait s t hrun
    refine ⟨a2, ?_⟩
    apply (debounce_step_quiet _ wait _ now a1).2.2.2
    rw [a2]
    simp only [timerReady, decide_eq_false_iff_not, not_le]
    omega
  · intro t0 pre now e hev he hpos
    obtain ⟨i1, i2, i3⟩ := debounce_last_trigger_inv (debounceOptions none) wait
      (Debounce.init (debounceOptions none) wait t0) none pre hev rfl (fun _ => rfl)
      (fun t ht => by cases ht)
    rcases he with he | he
    · subst he
      rw [hA] at hpos
      exact absurd hpos (lt_irrefl 0)
    · subst he
      refine ⟨rfl, ?_⟩
      cases hr : timerReady (Debounce.exec (debounceOptions none) wait
          (Debounce.init (debounceOptions none) wait t0) pre).timer now
      · rw [(debounce_step_quiet _ wait _ now i1).2.2.2 hr] at hpos
        exact absurd hpos (lt_irrefl 0)
      · cases hlt : Debounce.lastTrigger none pre with
        | none =>
          have h0 := i2 hlt
          rw [debounce_step_quiet_dispatch _ wait _ now i1 hr, h0] at hpos
          simp [debounceOptions, NewDebounceOptions] at hpos
        | some t =>
          refine ⟨t, rfl, ?_⟩
          cases hd : (Debounce.exec (debounceOptions none) wait
              (Debounce.init (debounceOptions none) wait t0) pre).timer with
          | none => rw [hd] at hr; cases hr
          | some d =>
            have := i3 t hlt d hd
            rw [hd] at hr
            simp only [timerReady, decide_eq_true_eq] at hr
            omega
  · intro t0 pre tl h qs hev hlt hh
    have hev2 : ∀ p ∈ pre, p.2 ≠ DebounceEvent.done ∧
        (p.2 = .timer → (debounceOptions none).Trailing = true) := by
      intro p hp
      rcases hev p hp with h | h <;> simp [h, debounceOptions, NewDebounceOptions]
    obtain ⟨c1, _, c3⟩ := debounce_count (debounceOptions none) wait
      (Debounce.init (debounceOptions none) wait t0) pre rfl
      (by simp [Debounce.init, uint64Size]) hev2
    have c4 : (Debounce.exec (debounceOptions none) wait
        (Debounce.init (debounceOptions none) wait t0) pre).invokedCount
        = Debounce.triggerCount pre := by
      rw [c3]
      simp only [Debounce.init, Nat.zero_add]
      exact Nat.mod_eq_of_lt (by omega)
    obtain ⟨a1, a2, a3, a4⟩ := debounce_step_invoke (debounceOptions none) wait _ tl c1
    rw [c4, Nat.mod_eq_of_lt hlt] at a3
    have hdue : timerReady (Debounce.step (debounceOptions none) wait
        (Debounce.exec (debounceOptions none) wait
          (Debounce.init (debounceOptions none) wait t0) pre) tl .invoke).1.timer h = true := by
      rw [a2]; simpa [timerReady] using hh
    have hidle := (debounce_step_quiet (debounceOptions none) wait _ h a1).2.2.1 hdue
    have hone : (Debounce.step (debounceOptions none) wait
        (Debounce.step (debounceOptions none) wait
          (Debounce.exec (debounceOptions none) wait
            (Debounce.init (debounceOptions none) wait t0) pre) tl .invoke).1 h .timer).2
        = 1 := by
      rw [debounce_step_quiet_dispatch _ wait _ h a1 hdue, a3]
      simp [debounceOptions, NewDebounceOptions]
    rw [debounce_log_append]
    congr 1
    simp only [Debounce.log, a4 rfl, hone, debounce_quiet_idle _ wait _ qs hidle]
    rfl
  · intro t0 ts
    generalize Debounce.init (debounceOptions none) wait t0 = s
    induction ts generalizing s with
    | nil => rfl
    | cons t ts ih =>
      show List.replicate (Debounce.step (debounceOptions none) wait s t .invoke).2 t
        ++ Debounce.log (debounceOptions none) wait
            (Debounce.step (debounceOptions none) wait s t .invoke).1 (Debounce.triggers ts) = []
      rw [hA, ih]
      rfl

/-- Witness for C2: `wait = 10`, triggers at 0, 4 and 8, quiet timer received at 18 and
again at 30: one dispatch, at 18. -/
theorem debounce_quiescence_witness :
    Debounce.log (debounceOptions none) 10 (Debounce.init (debounceOptions none) 10 0)
      ([(0, .invoke), (4, .invoke)] ++ (8, .invoke) :: (18, .timer)
        :: Debounce.quietEvents [30])
      = Debounce.log (debounceOptions none) 10 (Debounce.init (debounceOptions none) 10 0)
          [(0, .invoke), (4, .invoke)] ++ [18] :=
  (debounce_quiescence 10).2.2.2.1 0 [(0, .invoke), (4, .invoke)] 8 18 [30]
    (by decide) (by decide) (by decide)

/-- C4, as stated, fails.  With `Leading` and `Trailing` both set and `wait = 10`, the
throttle built at time 0 accepts triggers at 8 and 9 and its heartbeat fires at 10: the
callback is dispatched at 8 (leading edge) and at 10 (heartbeat), 2 apart.  With the
default options, a dispatch at the heartbeat at 10 is followed, after a trigger at 11, by
the cancellation flush at 12. -/
theorem throttle_rate_counterexample :
    Throttle.log ⟨true, true⟩ 10 (Throttle.init 10 0)
      [(8, .invoke), (9, .invoke), (10, .timer)] = [8, 10] ∧
    Throttle.log (throttleOptions none) 10 (Throttle.init 10 0)
      [(1, .invoke), (10, .timer), (11, .invoke), (12, .done)] = [10, 12] := by
  decide

/-- C4, amended.  For every option setting in which `Leading` and `Trailing` are not both
set, every `wait > 0`, every state and every run of the throttle actor without the
cancellation step, any two callback dispatches of the run are at least `wait` apart. -/
theorem throttle_rate (o : ThrottleOptions) (wait : Int) (s : ThrottleState)
    (es : List (Int × ThrottleEvent)) (hopt : ¬ (o.Leading = true ∧ o.Trailing = true))
    (hwait : 0 < wait) (hev : ∀ p ∈ es, p.2 ≠ .done) :
    List.Pairwise (fun x y => x + wait ≤ y) (Throttle.log o wait s es) := by
  cases hl : o.Leading
  · exact (throttle_spaced_of_bound o wait hwait.le (fun s => s.timer)
      (throttle_step_trailing_only o wait hl) s es hev).1
  · have ht : o.Trailing = false := by
      cases h : o.Trailing
      · rfl
      · exact absurd ⟨hl, h⟩ hopt
    exact (throttle_spaced_of_bound o wait hwait.le
      (fun s => s.lastInvoked.map (fun t => t + wait))
      (throttle_step_leading_only o wait ht) s es hev).1

/-- Witness for C4 (amended): default options, `wait = 10`, dispatches at the heartbeats
at 10 and 21. -/
theorem throttle_rate_witness :
    List.Pairwise (fun x y => x + 10 ≤ y)
      (Throttle.log (throttleOptions none) 10 (Throttle.init 10 0)
        [(1, .invoke), (10, .timer), (11, .invoke), (21, .timer)]) :=
  throttle_rate (throttleOptions none) 10 (Throttle.init 10 0)
    [(1, .invoke), (10, .timer), (11, .invoke), (21, .timer)] (by decide) (by decide)
    (by decide)

/-- C5, as stated, fails.  `Leading` and `Trailing` set, `wait = 10`, `MaxWait = 30`:
triggers at 0 and 1, the quiet timer at 11, then the ceiling timer at 30 with no further
trigger: the callback is dispatched a third time by a timer.  With the same triggers and
quiet timer, the cancellation step at 12 dispatches a third time as well. -/
theorem debounce_leading_trailing_counterexample :
    Debounce.log ⟨⟨true, true⟩, 30⟩ 10 (Debounce.init ⟨⟨true, true⟩, 30⟩ 10 0)
      [(0, .invoke), (1, .invoke), (11, .timer), (30, .maxTimer)] = [0, 11, 30] ∧
    Debounce.log ⟨⟨true, true⟩, 30⟩ 10 (Debounce.init ⟨⟨true, true⟩, 30⟩ 10 0)
      [(0, .invoke), (1, .invoke), (11, .timer), (12, .done)] = [0, 11, 12] := by
  decide

/-- C5, amended.  Debounce with `Leading` and `Trailing` set, from a fresh actor: let
triggers be accepted at `t1`, then at the times `mid` and at `tl`, all less than `wait`
after `t1` (`N = 2 + mid.length ≥ 2` triggers, `N < 2 ^ 64`).  The first trigger dispatches
once, the others dispatch nothing, the quiet-period timer received at `h ≥ tl + wait`
dispatches once more and is then disarmed, and later quiet-timer iterations dispatch
nothing: as long as no further trigger arrives, the ceiling timer does not fire and the
actor is not cancelled (the run goes on with quiet-timer iterations only), the dispatches
are exactly `[t1, h]`. -/
theorem debounce_leading_trailing (o : DebounceOptions) (wait t0 t1 tl h : Int)
    (mid qs : List Int) (hl : o.Leading = true) (ht : o.Trailing = true)
    (hN64 : mid.length + 2 < uint64Size) (hmid : ∀ t ∈ mid, t - t1 < wait)
    (hlast : tl - t1 < wait) (hh : tl + wait ≤ h) :
    Debounce.log o wait (Debounce.init o wait t0) [(t1, .invoke)] = [t1] ∧
    Debounce.log o wait (Debounce.init o wait t0)
      (Debounce.triggers (t1 :: (mid ++ [tl]))) = [t1] ∧
    Debounce.log o wait (Debounce.init o wait t0)
      (Debounce.triggers (t1 :: (mid ++ [tl])) ++ [(h, .timer)]) = [t1, h] ∧
    (Debounce.exec o wait (Debounce.init o wait t0)
      (Debounce.triggers (t1 :: (mid ++ [tl])) ++ [(h, .timer)])).timer = none ∧
    Debounce.log o wait (Debounce.init o wait t0)
      (Debounce.triggers (t1 :: (mid ++ [tl])) ++ (h, .timer) :: Debounce.quietEvents qs)
        = [t1, h] := by
  have hfirst : Debounce.step o wait (Debounce.init o wait t0) t1 .invoke
      = (⟨some t1, 1, some (t1 + wait), some (t1 + o.MaxWait), true⟩, 1) := by
    simp [Debounce.step, Debounce.init, Debounce.onInvoke, insideWindow, hl, uint64Size]
  obtain ⟨b1, b2, b3, b4⟩ := debounce_inside_burst o wait
    ⟨some t1, 1, some (t1 + wait), some (t1 + o.MaxWait), true⟩ t1 mid rfl rfl
    (by simp [uint64Size]) hmid
  have hstep3 := debounce_step_inside o wait _ t1 tl b1 b2 hlast
  have hcount : ((1 + mid.length) % uint64Size + 1) % uint64Size = mid.length + 2 := by
    have h1 : (1 + mid.length) % uint64Size = 1 + mid.length :=
      Nat.mod_eq_of_lt (by omega)
    rw [h1, Nat.mod_eq_of_lt (by omega)]
    omega
  rw [b3] at hstep3
  simp only at hstep3
  rw [hcount] at hstep3
  have hsplit : Debounce.triggers (t1 :: (mid ++ [tl]))
      = [(t1, DebounceEvent.invoke)] ++ (Debounce.triggers mid ++ [(tl, .invoke)]) := by
    simp [Debounce.triggers]
  have hexec : Debounce.exec o wait (Debounce.init o wait t0)
      (Debounce.triggers (t1 :: (mid ++ [tl])))
      = ⟨some t1, mid.length + 2, some (tl + wait),
          (Debounce.exec o wait ⟨some t1, 1, some (t1 + wait), some (t1 + o.MaxWait), true⟩
            (Debounce.triggers mid)).maxTimer, true⟩ := by
    rw [hsplit, debounce_exec_append, debounce_exec_append]
    simp only [Debounce.exec, hfirst, hstep3]
  have hlog : Debounce.log o wait (Debounce.init o wait t0)
      (Debounce.triggers (t1 :: (mid ++ [tl]))) = [t1] := by
    rw [hsplit, debounce_log_append, debounce_log_append]
    simp only [Debounce.exec, Debounce.log, hfirst, hstep3, b4]
    rfl
  have hquiet : ∀ (m : Option Int), Debounce.step o wait
      ⟨some t1, mid.length + 2, some (tl + wait), m, true⟩ h .timer
      = (⟨some t1, mid.length + 2, none, m, true⟩, 1) := by
    intro m
    have hdue : timerReady (some (tl + wait)) h = true := by simpa [timerReady] using hh
    simp [Debounce.step, hdue, Debounce.onTimer, hl, ht]
  have hlog2 : Debounce.log o wait (Debounce.init o wait t0)
      (Debounce.triggers (t1 :: (mid ++ [tl])) ++ [(h, .timer)]) = [t1, h] := by
    rw [debounce_log_append, hlog, hexec]
    simp only [Debounce.log, hquiet]
    rfl
  have hexec2 : (Debounce.exec o wait (Debounce.init o wait t0)
      (Debounce.triggers (t1 :: (mid ++ [tl])) ++ [(h, .timer)])).timer = none := by
    rw [debounce_exec_append, hexec]
    simp only [Debounce.exec, hquiet]
  refine ⟨?_, hlog, hlog2, hexec2, ?_⟩
  · simp only [Debounce.log, hfirst]
    rfl
  · have : Debounce.triggers (t1 :: (mid ++ [tl])) ++ (h, .timer) :: Debounce.quietEvents qs
        = (Debounce.triggers (t1 :: (mid ++ [tl])) ++ [(h, .timer)])
          ++ Debounce.quietEvents qs := by simp
    rw [this, debounce_log_append, hlog2, debounce_quiet_idle o wait _ qs hexec2,
      List.append_nil]

/-- Witness for C5 (amended): `wait = 10`, triggers at 0, 1, 2 and 3, quiet timer at 13
and again at 40. -/
theorem debounce_leading_trailing_witness :
    Debounce.log ⟨⟨true, true⟩, maxInt64⟩ 10 (Debounce.init ⟨⟨true, true⟩, maxInt64⟩ 10 0)
      (Debounce.triggers (0 :: ([1, 2] ++ [3])) ++ (13, .timer) :: Debounce.quietEvents [40])
        = [0, 13] :=
  (debounce_leading_trailing ⟨⟨true, true⟩, maxInt64⟩ 10 0 0 3 13 [1, 2] [40] rfl rfl
    (by decide) (by decide) (by decide) (by decide)).2.2.2.2

/-- C15. Stale counter, `Leading` and `Trailing` both set, `wait = 10`, construction at 0.
Debounce: a first burst of one trigger at 0 leaves the counter at 1 after its quiet timer
at 10; the next burst receives exactly one trigger, at 30, which opens it and is serviced
by the leading-edge dispatch, and the quiet timer at 40 nevertheless dispatches, the
counter being 2.  Throttle: a first window with one trigger at 5 leaves the counter at 1
after the heartbeat at 10; the next window receives exactly one trigger, at 15, which
opens it with a leading-edge dispatch, and the heartbeat at 20 nevertheless dispatches. -/
theorem stale_counter :
    (∃ (pre : List (Int × DebounceEvent)) (t h : Int),
      (Debounce.exec ⟨⟨true, true⟩, maxInt64⟩ 10
        (Debounce.init ⟨⟨true, true⟩, maxInt64⟩ 10 0) pre).invokedCount = 1 ∧
      Debounce.step ⟨⟨true, true⟩, maxInt64⟩ 10
        (Debounce.exec ⟨⟨true, true⟩, maxInt64⟩ 10
          (Debounce.init ⟨⟨true, true⟩, maxInt64⟩ 10 0) pre) t .invoke
        = (⟨some t, 2, some (t + 10), some (t + maxInt64), true⟩, 1) ∧
      (Debounce.step ⟨⟨true, true⟩, maxInt64⟩ 10
        ⟨some t, 2, some (t + 10), some (t + maxInt64), true⟩ h .timer).2 = 1 ∧
      Debounce.log ⟨⟨true, true⟩, maxInt64⟩ 10 (Debounce.init ⟨⟨true, true⟩, maxInt64⟩ 10 0)
        (pre ++ [(t, .invoke), (h, .timer)]) = [0, t, h]) ∧
    (∃ (pre : List (Int × ThrottleEvent)) (t h : Int),
      (Throttle.exec ⟨true, true⟩ 10 (Throttle.init 10 0) pre).invokedCount = 1 ∧
      Throttle.step ⟨true, true⟩ 10 (Throttle.exec ⟨true, true⟩ 10 (Throttle.init 10 0) pre)
          t .invoke
        = (⟨some t, 2, some h, true⟩, 1) ∧
      (Throttle.step ⟨true, true⟩ 10 ⟨some t, 2, some h, true⟩ h .timer).2 = 1 ∧
      Throttle.log ⟨true, true⟩ 10 (Throttle.init 10 0)
        (pre ++ [(t, .invoke), (h, .timer)]) = [5, t, h]) :=
  ⟨⟨[(0, .invoke), (10, .timer)], 30, 40, by decide⟩,
    ⟨[(5, .invoke), (10, .timer)], 15, 20, by decide⟩⟩

/-- C19. Debounce with `Trailing` set (either value of `Leading`) never resets the counter:
in every run from construction `invokedCount` is the number of triggers accepted so far
modulo `2 ^ 64`, hence that number itself while it is below `2 ^ 64`; consequently, once
at least one trigger has been accepted (and fewer than `2 ^ 64`), and as long as the
goroutine is running, every ceiling-timer firing and the cancellation step dispatch the
callback exactly once, whatever trailing dispatches have taken place before. -/
theorem debounce_counter_never_reset (o : DebounceOptions) (wait t0 : Int)
    (es : List (Int × DebounceEvent)) (ht : o.Trailing = true) :
    (Debounce.exec o wait (Debounce.init o wait t0) es).invokedCount
      = Debounce.accepted o wait (Debounce.init o wait t0) es % uint64Size ∧
    (Debounce.accepted o wait (Debounce.init o wait t0) es < uint64Size →
      (Debounce.exec o wait (Debounce.init o wait t0) es).invokedCount
        = Debounce.accepted o wait (Debounce.init o wait t0) es) ∧
    (0 < Debounce.accepted o wait (Debounce.init o wait t0) es →
      Debounce.accepted o wait (Debounce.init o wait t0) es < uint64Size →
      (Debounce.exec o wait (Debounce.init o wait t0) es).running = true →
      (∀ now, timerReady (Debounce.exec o wait (Debounce.init o wait t0) es).maxTimer now
          = true →
        (Debounce.step o wait (Debounce.exec o wait (Debounce.init o wait t0) es) now
          .maxTimer).2 = 1) ∧
      (∀ now, (Debounce.step o wait (Debounce.exec o wait (Debounce.init o wait t0) es) now
          .done).2 = 1)) := by
  have hc := debounce_trailing_count o wait (Debounce.init o wait t0) es ht
    (by simp [Debounce.init, uint64Size])
  have hc0 : (Debounce.exec o wait (Debounce.init o wait t0) es).invokedCount
      = Debounce.accepted o wait (Debounce.init o wait t0) es % uint64Size := by
    rw [hc]
    simp [Debounce.init]
  refine ⟨hc0, fun hlt => hc0.trans (Nat.mod_eq_of_lt hlt), ?_⟩
  intro hpos hlt hrun
  have hcnt : 0 < (Debounce.exec o wait (Debounce.init o wait t0) es).invokedCount := by
    rw [hc0, Nat.mod_eq_of_lt hlt]
    exact hpos
  constructor
  · intro now hdue
    simp [Debounce.step, hrun, hdue, Debounce.onMaxTimer, hcnt]
  · intro now
    simp [Debounce.step, hrun, Debounce.onDone, hcnt]

/-- Witness for C19: default options with `MaxWait = 30`, `wait = 10`: one trigger at 0,
serviced by the trailing dispatch at 10; with no further trigger the cancellation step
still dispatches. -/
theorem debounce_counter_never_reset_witness :
    (Debounce.step ⟨⟨false, true⟩, 30⟩ 10
      (Debounce.exec ⟨⟨false, true⟩, 30⟩ 10 (Debounce.init ⟨⟨false, true⟩, 30⟩ 10 0)
        [(0, .invoke), (10, .timer)]) 12 .done).2 = 1 :=
  ((debounce_counter_never_reset ⟨⟨false, true⟩, 30⟩ 10 0 [(0, .invoke), (10, .timer)]
    rfl).2.2 (by decide) (by decide) (by decide)).2 12

/-- C20. Throttle leading-edge spacing, `wait > 0`: for every option setting, every state
and every run, any two callback dispatches made by trigger steps are at least `wait`
apart; a trigger step that dispatches sets `lastInvoked` to its own time, and a trigger
step dispatches only when `lastInvoked` is unset or at least `wait` old.  With `Leading`
set and `Trailing` unset the heartbeat never dispatches, so in every run without the
cancellation step all dispatches are trigger-step dispatches and are at least `wait`
apart. -/
theorem throttle_leading_spacing (o : ThrottleOptions) (wait : Int) (hwait : 0 < wait) :
    (∀ (s : ThrottleState) (es : List (Int × ThrottleEvent)),
      List.Pairwise (fun x y => x + wait ≤ y) (Throttle.leadingLog o wait s es)) ∧
    (∀ (s : ThrottleState) (now : Int), 0 < (Throttle.step o wait s now .invoke).2 →
      (Throttle.step o wait s now .invoke).1.lastInvoked = some now ∧
      ∀ t, s.lastInvoked = some t → t + wait ≤ now) ∧
    (o.Leading = true → o.Trailing = false →
      (∀ (s : ThrottleState) (now : Int), (Throttle.step o wait s now .timer).2 = 0) ∧
      (∀ (s : ThrottleState) (es : List (Int × ThrottleEvent)), (∀ p ∈ es, p.2 ≠ .done) →
        Throttle.log o wait s es = Throttle.leadingLog o wait s es ∧
        List.Pairwise (fun x y => x + wait ≤ y) (Throttle.log o wait s es))) := by
  refine ⟨fun s es => (throttle_leading_spaced o wait hwait.le s es).1, ?_, ?_⟩
  · intro s now hpos
    cases hr : s.running
    · rw [throttle_step_stopped o wait s now _ hr] at hpos
      exact absurd hpos (lt_irrefl 0)
    · rw [throttle_step_invoke_dispatch o wait s now hr] at hpos
      cases hin : insideWindow s.lastInvoked now wait
      · rcases ((throttle_step_last o wait s now .invoke).1 ⟨rfl, hr⟩).2 with
          ⟨h, _⟩ | ⟨_, hl⟩
        · rw [hin] at h; cases h
        · refine ⟨hl, ?_⟩
          intro t ht
          rw [ht] at hin
          simp only [insideWindow, decide_eq_false_iff_not, not_lt] at hin
          omega
      · rw [if_pos hin] at hpos
        exact absurd hpos (lt_irrefl 0)
  · intro _ ht
    refine ⟨fun s now => throttle_step_timer_silent o wait s now ht, ?_⟩
    intro s es hev
    have heq := throttle_log_eq_leading o wait ht s es hev
    refine ⟨heq, ?_⟩
    rw [heq]
    exact (throttle_leading_spaced o wait hwait.le s es).1

/-- Witness for C20: leading-only throttle, `wait = 10`: triggers at 1, 5, 11 and 12 and
heartbeats at 10 and 20 give the dispatches 1 and 11. -/
theorem throttle_leading_spacing_witness :
    Throttle.log ⟨true, false⟩ 10 (Throttle.init 10 0)
        [(1, .invoke), (5, .invoke), (10, .timer), (11, .invoke), (12, .invoke), (20, .timer)]
      = Throttle.leadingLog ⟨true, false⟩ 10 (Throttle.init 10 0)
        [(1, .invoke), (5, .invoke), (10, .timer), (11, .invoke), (12, .invoke),
          (20, .timer)] :=
  (((throttle_leading_spacing ⟨true, false⟩ 10 (by decide)).2.2 rfl rfl).2
    (Throttle.init 10 0)
    [(1, .invoke), (5, .invoke), (10, .timer), (11, .invoke), (12, .invoke), (20, .timer)]
    (by decide)).1

/-- C16. Throttle periodic property, default options, `wait > 0`.  A span `[a, a + D]`
starts in a running state with counter 0 whose next heartbeat is due at `d`, with
`a ≤ d ≤ a + wait`; the heartbeat fires every `wait`, and triggering is continuous: each
heartbeat of the span is preceded by at least one accepted trigger since the previous one
(fewer than `2 ^ 64`); the span contains the `k` heartbeats `d, d + wait, ...` and ends
before the next one.  Then the callback is dispatched exactly at those heartbeats, all
inside the span, and their number is at least `⌊D / wait⌋` and at most
`⌈D / wait⌉ + 1`. -/
theorem throttle_periodic (wait a D d : Int) (s : ThrottleState) (rs : List (List Int))
    (hwait : 0 < wait) (hrun : s.running = true) (hcnt : s.invokedCount = 0)
    (htim : s.timer = some d)
    (hcont : ∀ r ∈ rs, 1 ≤ r.length ∧ r.length < uint64Size)
    (hfirst : a ≤ d ∧ d ≤ a + wait)
    (hlast : d + ((rs.length : Int) - 1) * wait ≤ a + D ∧
      a + D < d + (rs.length : Int) * wait) :
    Throttle.log (throttleOptions none) wait s (Throttle.rounds wait d rs)
      = List.iterate (fun t => t + wait) d rs.length ∧
    (∀ x ∈ Throttle.log (throttleOptions none) wait s (Throttle.rounds wait d rs),
      a ≤ x ∧ x ≤ a + D) ∧
    ⌊(D : ℚ) / wait⌋
      ≤ ((Throttle.log (throttleOptions none) wait s (Throttle.rounds wait d rs)).length
          : Int) ∧
    ((Throttle.log (throttleOptions none) wait s (Throttle.rounds wait d rs)).length : Int)
      ≤ ⌈(D : ℚ) / wait⌉ + 1 := by
  have hlog := throttle_rounds_log wait s d rs hrun hcnt htim hcont
  have hlen : (Throttle.log (throttleOptions none) wait s
      (Throttle.rounds wait d rs)).length = rs.length := by
    rw [hlog, List.length_iterate]
  refine ⟨hlog, ?_, ?_⟩
  · intro x hx
    rw [hlog] at hx
    obtain ⟨h1, h2⟩ := iterate_bounds wait hwait.le rs.length d x hx
    constructor
    · exact le_trans hfirst.1 h1
    · exact le_trans h2 hlast.1
  · rw [hlen]
    apply span_bounds wait D rs.length hwait
    · nlinarith [hfirst.2, hlast.2]
    · nlinarith [hfirst.1, hlast.1]

/-- Witness for C16: `wait = 10`, construction at 0, span `[0, 35]`: heartbeats at 10, 20
and 30, each preceded by triggers; three dispatches, `⌊35 / 10⌋ = 3`. -/
theorem throttle_periodic_witness :
    Throttle.log (throttleOptions none) 10 (Throttle.init 10 0)
      (Throttle.rounds 10 10 [[1, 2], [11], [21, 22, 23]]) = [10, 20, 30] :=
  (throttle_periodic 10 0 35 10 (Throttle.init 10 0) [[1, 2], [11], [21, 22, 23]]
    (by decide) rfl rfl rfl (by decide) (by decide) (by decide)).1

/-! ## Construction and calls after cancellation -/

/-- C17, as stated, fails.  `Throttle(f, 0, nil)`, the call of the first throttle test,
succeeds with a zero `wait` and returns a running actor whose heartbeat is due at once;
`Throttle` with a negative `wait`, `Throttle` with a nil callback and `Debounce` with
`wait = 10` and `MaxWait = 5` succeed as well; and `Throttle` with a callback, `wait = 10`
and a non-nil `options` whose `Ctx` is nil does not succeed. -/
theorem construction_counterexample :
    Throttle false 0 none false 0
      = some ⟨false, NewThrottleOptions, ⟨none, 0, some 0, true⟩⟩ ∧
    Throttle false (-5) none false 0
      = some ⟨false, NewThrottleOptions, ⟨none, 0, some (-5), true⟩⟩ ∧
    Throttle true 10 none false 0
      = some ⟨true, NewThrottleOptions, ⟨none, 0, some 10, true⟩⟩ ∧
    Debounce false 10 (some ⟨⟨false, true⟩, 5⟩) false 0
      = some ⟨false, ⟨⟨false, true⟩, 5⟩, ⟨none, 0, some 10, some 5, true⟩⟩ ∧
    Throttle false 10 (some ⟨true, false⟩) true 0 = none := by
  decide

/-- C17, amended.  `Throttle` and `Debounce` validate neither the callback, nor `wait`, nor
`MaxWait`: construction succeeds exactly when `options` is nil or carries a non-nil `Ctx`,
whatever the callback, `wait` and `MaxWait` are; when it succeeds the actor is running in
its initial state with the options in use (the defaults for a nil `options`) and its
timers armed for `t0 + wait` (and `t0 + MaxWait`), so that a zero or negative `wait` makes
the timer due at once; the callback is only captured: a nil callback is a run-time error
of the first iteration that dispatches, not of construction. -/
theorem construction_unvalidated :
    (∀ (fNil : Bool) (wait : Int) (options : Option ThrottleOptions) (ctxNil : Bool)
        (t0 : Int),
      (Throttle fNil wait options ctxNil t0 = none ↔ options ≠ none ∧ ctxNil = true) ∧
      (∀ (fNil2 : Bool) (wait2 : Int),
        (Throttle fNil2 wait2 options ctxNil t0).isSome
          = (Throttle fNil wait options ctxNil t0).isSome) ∧
      (∀ a, Throttle fNil wait options ctxNil t0 = some a →
        a.fNil = fNil ∧ a.options = throttleOptions options ∧
        a.state = ⟨none, 0, some (t0 + wait), true⟩ ∧
        (timerReady a.state.timer t0 = true ↔ wait ≤ 0) ∧
        (∀ n, 0 < n → (goF a.fNil n = none ↔ fNil = true)) ∧
        goF a.fNil 0 = some 0)) ∧
    (∀ (fNil : Bool) (wait : Int) (options : Option DebounceOptions) (ctxNil : Bool)
        (t0 : Int),
      (Debounce fNil wait options ctxNil t0 = none ↔ options ≠ none ∧ ctxNil = true) ∧
      (∀ (fNil2 : Bool) (wait2 : Int) (maxWait2 : Int),
        (Debounce fNil2 wait2
          (options.map (fun o => ⟨o.toThrottleOptions, maxWait2⟩)) ctxNil t0).isSome
          = (Debounce fNil wait options ctxNil t0).isSome) ∧
      (∀ a, Debounce fNil wait options ctxNil t0 = some a →
        a.fNil = fNil ∧ a.options = debounceOptions options ∧
        a.state = ⟨none, 0, some (t0 + wait),
          some (t0 + (debounceOptions options).MaxWait), true⟩ ∧
        (timerReady a.state.timer t0 = true ↔ wait ≤ 0) ∧
        (∀ n, 0 < n → (goF a.fNil n = none ↔ fNil = true)) ∧
        goF a.fNil 0 = some 0)) := by
  have hgo : ∀ (f : Bool) (n : Nat), 0 < n → (goF f n = none ↔ f = true) := by
    intro f n hn
    cases f <;> simp [goF, hn]
  have hdue : ∀ (t0 wait : Int), timerReady (some (t0 + wait)) t0 = true ↔ wait ≤ 0 := by
    intro t0 wait
    simp only [timerReady, decide_eq_true_eq]
    omega
  constructor
  · intro fNil wait options ctxNil t0
    refine ⟨?_, ?_, ?_⟩
    · cases options <;> cases ctxNil <;> simp [Throttle]
    · intro fNil2 wait2
      cases options <;> cases ctxNil <;> rfl
    · intro a ha
      have hres : a = ⟨fNil, throttleOptions options, ⟨none, 0, some (t0 + wait), true⟩⟩ := by
        cases options <;> cases ctxNil <;>
          simp [Throttle, throttleOptions, Throttle.init] at ha ⊢ <;> exact ha.symm
      subst hres
      exact ⟨rfl, rfl, rfl, hdue t0 wait, fun n hn => hgo fNil n hn, by simp [goF]⟩
  · intro fNil wait options ctxNil t0
    refine ⟨?_, ?_, ?_⟩
    · cases options <;> cases ctxNil <;> simp [Debounce]
    · intro fNil2 wait2 maxWait2
      cases options <;> cases ctxNil <;> rfl
    · intro a ha
      have hres : a = ⟨fNil, debounceOptions options,
          ⟨none, 0, some (t0 + wait), some (t0 + (debounceOptions options).MaxWait),
            true⟩⟩ := by
        cases options <;> cases ctxNil <;>
          simp [Debounce, debounceOptions, Debounce.init] at ha ⊢ <;> exact ha.symm
      subst hres
      exact ⟨rfl, rfl, rfl, hdue t0 wait, fun n hn => hgo fNil n hn, by simp [goF]⟩

/-- Witness for C17 (amended): `Throttle` with a nil callback and `wait = 0`: construction
succeeds, the heartbeat is due at once, and the first dispatch is a run-time error. -/
theorem construction_unvalidated_witness :
    timerReady (⟨true, NewThrottleOptions, ⟨none, 0, some 0, true⟩⟩ : ThrottleActor).state.timer
        0 = true ∧
    goF (⟨true, NewThrottleOptions, ⟨none, 0, some 0, true⟩⟩ : ThrottleActor).fNil 1 = none :=
  have h := (construction_unvalidated.1 true 0 none false 0).2.2
    ⟨true, NewThrottleOptions, ⟨none, 0, some 0, true⟩⟩ rfl
  ⟨h.2.2.2.1.mpr (by decide), (h.2.2.2.2.1 1 (by decide)).mpr rfl⟩

/-- C18, as stated, fails.  Default options, `wait = 10`: after the cancellation step at
time 5 the goroutine has returned, and a call of the trigger closure at time 6 is never
accepted: it does not return.  The same for both wrappers. -/
theorem trigger_after_cancel_counterexample :
    Throttle.throttled (throttleOptions none) 10
      (Throttle.exec (throttleOptions none) 10 (Throttle.init 10 0) [(5, .done)]) 6 = none ∧
    Debounce.debounced (debounceOptions none) 10
      (Debounce.exec (debounceOptions none) 10 (Debounce.init (debounceOptions none) 10 0)
        [(5, .done)]) 6 = none := by
  decide

/-- C18, amended.  For both wrappers: a call of the trigger closure made once the
goroutine has returned is never accepted, so it never returns to its caller (it changes
nothing, dispatches nothing and does not panic); this holds after every history that
contains the cancellation step.  While the goroutine is running the call returns once the
trigger case has been taken. -/
theorem trigger_after_cancel :
    (∀ (o : ThrottleOptions) (wait : Int) (s : ThrottleState) (now : Int),
      (s.running = false → Throttle.throttled o wait s now = none) ∧
      (s.running = true →
        Throttle.throttled o wait s now = some (Throttle.step o wait s now .invoke)) ∧
      (∀ pre post t, Throttle.throttled o wait
        (Throttle.exec o wait s (pre ++ (t, .done) :: post)) now = none)) ∧
    (∀ (o : DebounceOptions) (wait : Int) (s : DebounceState) (now : Int),
      (s.running = false → Debounce.debounced o wait s now = none) ∧
      (s.running = true →
        Debounce.debounced o wait s now = some (Debounce.step o wait s now .invoke)) ∧
      (∀ pre post t, Debounce.debounced o wait
        (Debounce.exec o wait s (pre ++ (t, .done) :: post)) now = none)) := by
  constructor
  · intro o wait s now
    refine ⟨fun h => by simp [Throttle.throttled, h],
      fun h => by simp [Throttle.throttled, h], ?_⟩
    intro pre post t
    have hstop : (Throttle.exec o wait s (pre ++ (t, .done) :: post)).running = false := by
      rw [throttle_exec_append]
      show (Throttle.exec o wait
        (Throttle.step o wait (Throttle.exec o wait s pre) t .done).1 post).running = false
      rw [throttle_exec_stopped o wait _ post (throttle_done_stops o wait _ t)]
      exact throttle_done_stops o wait _ t
    simp [Throttle.throttled, hstop]
  · intro o wait s now
    refine ⟨fun h => by simp [Debounce.debounced, h],
      fun h => by simp [Debounce.debounced, h], ?_⟩
    intro pre post t
    have hstop : (Debounce.exec o wait s (pre ++ (t, .done) :: post)).running = false := by
      rw [debounce_exec_append]
      show (Debounce.exec o wait
        (Debounce.step o wait (Debounce.exec o wait s pre) t .done).1 post).running = false
      rw [debounce_exec_stopped o wait _ post (debounce_done_stops o wait _ t)]
      exact debounce_done_stops o wait _ t
    simp [Debounce.debounced, hstop]

/-- Witness for C18 (amended): a default throttle cancelled at time 5. -/
theorem trigger_after_cancel_witness :
    Throttle.throttled (throttleOptions none) 10
      (Throttle.step (throttleOptions none) 10 (Throttle.init 10 0) 5 .done).1 6 = none :=
  (trigger_after_cancel.1 (throttleOptions none) 10
    (Throttle.step (throttleOptions none) 10 (Throttle.init 10 0) 5 .done).1 6).1 (by decide)

/-! ## Cancellation -/

/-- C3, as stated, fails.  Debounce with default options, `wait = 10`: one trigger at 0
and the quiet timer at 10 (which dispatches): no trigger has been accepted since that
dispatch, yet the cancellation step dispatches again.  Throttle with `Leading` and
`Trailing` both false: one trigger at 1 and the heartbeat at 10 (which clears the counter
without dispatching): a trigger has been accepted and never serviced, yet the cancellation
step dispatches nothing. -/
theorem cancel_flush_counterexample :
    (Debounce.pending (debounceOptions none) 10 (Debounce.init (debounceOptions none) 10 0) 0
        [(0, .invoke), (10, .timer)] = 0 ∧
      Debounce.log (debounceOptions none) 10 (Debounce.init (debounceOptions none) 10 0)
        [(0, .invoke), (10, .timer)] = [10] ∧
      (Debounce.step (debounceOptions none) 10
        (Debounce.exec (debounceOptions none) 10 (Debounce.init (debounceOptions none) 10 0)
          [(0, .invoke), (10, .timer)]) 11 .done).2 = 1) ∧
    (Throttle.pending ⟨false, false⟩ 10 (Throttle.init 10 0) 0
        [(1, .invoke), (10, .timer)] = 1 ∧
      (Throttle.exec ⟨false, false⟩ 10 (Throttle.init 10 0)
        [(1, .invoke), (10, .timer)]).running = true ∧
      (Throttle.step ⟨false, false⟩ 10
        (Throttle.exec ⟨false, false⟩ 10 (Throttle.init 10 0)
          [(1, .invoke), (10, .timer)]) 11 .done).2 = 0) := by
  decide

/-- C3, amended.  For both actors and every option setting, in every running state the
cancellation step dispatches exactly once if `invokedCount > 0` and not at all if
`invokedCount = 0`.  For Throttle with default options the counter of every reachable
running state is the number of triggers accepted since the last dispatch (modulo
`2 ^ 64`): there cancellation dispatches exactly once if at least one trigger (and fewer
than `2 ^ 64`) has been accepted since the last dispatch, and not at all if none has. -/
theorem cancel_flush :
    (∀ (o : ThrottleOptions) (wait : Int) (s : ThrottleState) (now : Int),
      s.running = true →
      (0 < s.invokedCount → (Throttle.step o wait s now .done).2 = 1) ∧
      (s.invokedCount = 0 → (Throttle.step o wait s now .done).2 = 0)) ∧
    (∀ (o : DebounceOptions) (wait : Int) (s : DebounceState) (now : Int),
      s.running = true →
      (0 < s.invokedCount → (Debounce.step o wait s now .done).2 = 1) ∧
      (s.invokedCount = 0 → (Debounce.step o wait s now .done).2 = 0)) ∧
    (∀ (wait t0 : Int) (es : List (Int × ThrottleEvent)) (now : Int),
      (Throttle.exec (throttleOptions none) wait (Throttle.init wait t0) es).running = true →
      Throttle.pending (throttleOptions none) wait (Throttle.init wait t0) 0 es
        < uint64Size →
      (0 < Throttle.pending (throttleOptions none) wait (Throttle.init wait t0) 0 es →
        (Throttle.step (throttleOptions none) wait
          (Throttle.exec (throttleOptions none) wait (Throttle.init wait t0) es) now
            .done).2 = 1) ∧
      (Throttle.pending (throttleOptions none) wait (Throttle.init wait t0) 0 es = 0 →
        (Throttle.step (throttleOptions none) wait
          (Throttle.exec (throttleOptions none) wait (Throttle.init wait t0) es) now
            .done).2 = 0)) := by
  have hT : ∀ (o : ThrottleOptions) (wait : Int) (s : ThrottleState) (now : Int),
      s.running = true →
      (0 < s.invokedCount → (Throttle.step o wait s now .done).2 = 1) ∧
      (s.invokedCount = 0 → (Throttle.step o wait s now .done).2 = 0) := by
    intro o wait s now hrun
    simp only [Throttle.step, hrun, if_true, Throttle.onDone]
    constructor
    · intro h; simp [h]
    · intro h; simp [h]
  refine ⟨hT, ?_, ?_⟩
  · intro o wait s now hrun
    simp only [Debounce.step, hrun, if_true, Debounce.onDone]
    constructor
    · intro h; simp [h]
    · intro h; simp [h]
  · intro wait t0 es now hrun hlt
    have hc := throttle_pending_inv wait (Throttle.init wait t0) 0 es (fun _ => rfl) hrun
    rw [Nat.mod_eq_of_lt hlt] at hc
    obtain ⟨h1, h2⟩ := hT (throttleOptions none) wait _ now hrun
    exact ⟨fun h => h1 (hc ▸ h), fun h => h2 (hc.trans h)⟩

/-- Witness for C3 (amended): default throttle, `wait = 10`, a dispatch at the heartbeat
at 10, then one trigger at 12: cancellation at 13 dispatches once. -/
theorem cancel_flush_witness :
    (Throttle.step (throttleOptions none) 10
      (Throttle.exec (throttleOptions none) 10 (Throttle.init 10 0)
        [(1, .invoke), (10, .timer), (12, .invoke)]) 13 .done).2 = 1 :=
  (cancel_flush.2.2 10 0 [(1, .invoke), (10, .timer), (12, .invoke)] 13
    (by decide) (by decide)).1 (by decide)

/-- C12. Cancellation step of both actors: in every running state and for every option
setting, the `Done` case dispatches the callback exactly once if `invokedCount > 0` and
not at all if it is 0 (never more than once); the dispatch belongs to that same iteration,
after which the goroutine has returned with its timer(s) stopped, the counter and
`lastInvoked` as they were, and no later iteration changes the state or dispatches. -/
theorem cancel_step :
    (∀ (o : ThrottleOptions) (wait : Int) (s : ThrottleState) (now : Int),
      s.running = true →
      ((Throttle.step o wait s now .done).2 = 1 ↔ 0 < s.invokedCount) ∧
      ((Throttle.step o wait s now .done).2 = 0 ↔ s.invokedCount = 0) ∧
      (Throttle.step o wait s now .done).2 ≤ 1 ∧
      (Throttle.step o wait s now .done).1.running = false ∧
      (Throttle.step o wait s now .done).1.timer = none ∧
      (Throttle.step o wait s now .done).1.invokedCount = s.invokedCount ∧
      (Throttle.step o wait s now .done).1.lastInvoked = s.lastInvoked ∧
      (∀ es, Throttle.exec o wait (Throttle.step o wait s now .done).1 es
          = (Throttle.step o wait s now .done).1 ∧
        Throttle.log o wait (Throttle.step o wait s now .done).1 es = [])) ∧
    (∀ (o : DebounceOptions) (wait : Int) (s : DebounceState) (now : Int),
      s.running = true →
      ((Debounce.step o wait s now .done).2 = 1 ↔ 0 < s.invokedCount) ∧
      ((Debounce.step o wait s now .done).2 = 0 ↔ s.invokedCount = 0) ∧
      (Debounce.step o wait s now .done).2 ≤ 1 ∧
      (Debounce.step o wait s now .done).1.running = false ∧
      (Debounce.step o wait s now .done).1.timer = none ∧
      (Debounce.step o wait s now .done).1.maxTimer = none ∧
      (Debounce.step o wait s now .done).1.invokedCount = s.invokedCount ∧
      (Debounce.step o wait s now .done).1.lastInvoked = s.lastInvoked ∧
      (∀ es, Debounce.exec o wait (Debounce.step o wait s now .done).1 es
          = (Debounce.step o wait s now .done).1 ∧
        Debounce.log o wait (Debounce.step o wait s now .done).1 es = [])) := by
  constructor
  · intro o wait s now hrun
    have hstop := throttle_done_stops o wait s now
    refine ⟨?_, ?_, ?_, hstop, ?_, ?_, ?_, fun es =>
      ⟨throttle_exec_stopped o wait _ es hstop, throttle_log_stopped o wait _ es hstop⟩⟩
    · simp only [Throttle.step, hrun, if_true, Throttle.onDone]
      split_ifs with h <;> simp [h]
    · simp only [Throttle.step, hrun, if_true, Throttle.onDone]
      split_ifs with h <;> simp <;> omega
    · simp only [Throttle.step, hrun, if_true, Throttle.onDone]
      split_ifs <;> simp
    · simp [Throttle.step, hrun, Throttle.onDone]
    · simp [Throttle.step, hrun, Throttle.onDone]
    · simp [Throttle.step, hrun, Throttle.onDone]
  · intro o wait s now hrun
    have hstop := debounce_done_stops o wait s now
    refine ⟨?_, ?_, ?_, hstop, ?_, ?_, ?_, ?_, fun es =>
      ⟨debounce_exec_stopped o wait _ es hstop, debounce_log_stopped o wait _ es hstop⟩⟩
    · simp only [Debounce.step, hrun, if_true, Debounce.onDone]
      split_ifs with h <;> simp [h]
    · simp only [Debounce.step, hrun, if_true, Debounce.onDone]
      split_ifs with h <;> simp <;> omega
    · simp only [Debounce.step, hrun, if_true, Debounce.onDone]
      split_ifs <;> simp
    · simp [Debounce.step, hrun, Debounce.onDone]
    · simp [Debounce.step, hrun, Debounce.onDone]
    · simp [Debounce.step, hrun, Debounce.onDone]
    · simp [Debounce.step, hrun, Debounce.onDone]

/-- Witness for C12: cancelling a default debounce that has accepted one trigger. -/
theorem cancel_step_witness :
    (Debounce.step (debounceOptions none) 10
      (Debounce.exec (debounceOptions none) 10 (Debounce.init (debounceOptions none) 10 0)
        [(1, .invoke)]) 5 .done).1.maxTimer = none :=
  (cancel_step.2 (debounceOptions none) 10
    (Debounce.exec (debounceOptions none) 10 (Debounce.init (debounceOptions none) 10 0)
      [(1, .invoke)]) 5 (by decide)).2.2.2.2.2.1

/-- C7. Idempotent cancel, for both actors: after the cancellation step the goroutine has
returned; every later iteration (a second cancel, a trigger, a timer expiry) leaves the
state unchanged and dispatches nothing; so for every event history `pre` and continuation
`post`, observing cancellation twice gives the same dispatches (and the same final state)
as observing it once, and nothing is dispatched after the first cancellation. -/
theorem cancel_idempotent :
    (∀ (o : ThrottleOptions) (wait : Int) (s : ThrottleState)
        (pre post : List (Int × ThrottleEvent)) (t1 t2 : Int),
      (Throttle.exec o wait s (pre ++ [(t1, .done)])).running = false ∧
      (∀ now e, Throttle.step o wait (Throttle.exec o wait s (pre ++ [(t1, .done)])) now e
          = (Throttle.exec o wait s (pre ++ [(t1, .done)]), 0)) ∧
      Throttle.log o wait s (pre ++ (t1, .done) :: (t2, .done) :: post)
          = Throttle.log o wait s (pre ++ (t1, .done) :: post) ∧
      Throttle.log o wait s (pre ++ (t1, .done) :: post)
          = Throttle.log o wait s (pre ++ [(t1, .done)]) ∧
      Throttle.exec o wait s (pre ++ (t1, .done) :: (t2, .done) :: post)
          = Throttle.exec o wait s (pre ++ [(t1, .done)]) ∧
      (Throttle.log o wait s (pre ++ (t1, .done) :: (t2, .done) :: post)).length
          = (Throttle.log o wait s (pre ++ (t1, .done) :: post)).length) ∧
    (∀ (o : DebounceOptions) (wait : Int) (s : DebounceState)
        (pre post : List (Int × DebounceEvent)) (t1 t2 : Int),
      (Debounce.exec o wait s (pre ++ [(t1, .done)])).running = false ∧
      (∀ now e, Debounce.step o wait (Debounce.exec o wait s (pre ++ [(t1, .done)])) now e
          = (Debounce.exec o wait s (pre ++ [(t1, .done)]), 0)) ∧
      Debounce.log o wait s (pre ++ (t1, .done) :: (t2, .done) :: post)
          = Debounce.log o wait s (pre ++ (t1, .done) :: post) ∧
      Debounce.log o wait s (pre ++ (t1, .done) :: post)
          = Debounce.log o wait s (pre ++ [(t1, .done)]) ∧
      Debounce.exec o wait s (pre ++ (t1, .done) :: (t2, .done) :: post)
          = Debounce.exec o wait s (pre ++ [(t1, .done)]) ∧
      (Debounce.log o wait s (pre ++ (t1, .done) :: (t2, .done) :: post)).length
          = (Debounce.log o wait s (pre ++ (t1, .done) :: post)).length) := by
  constructor
  · intro o wait s pre post t1 t2
    have hstop : (Throttle.exec o wait s (pre ++ [(t1, .done)])).running = false := by
      rw [throttle_exec_append]
      exact throttle_done_stops o wait _ t1
    have hone : ∀ fs, Throttle.log o wait s (pre ++ (t1, .done) :: fs)
        = Throttle.log o wait s (pre ++ [(t1, .done)]) := by
      intro fs
      have : pre ++ (t1, ThrottleEvent.done) :: fs = (pre ++ [(t1, .done)]) ++ fs := by simp
      rw [this, throttle_log_append, throttle_log_stopped o wait _ fs hstop, List.append_nil]
    have hex : ∀ fs, Throttle.exec o wait s (pre ++ (t1, .done) :: fs)
        = Throttle.exec o wait s (pre ++ [(t1, .done)]) := by
      intro fs
      have : pre ++ (t1, ThrottleEvent.done) :: fs = (pre ++ [(t1, .done)]) ++ fs := by simp
      rw [this, throttle_exec_append, throttle_exec_stopped o wait _ fs hstop]
    refine ⟨hstop, fun now e => throttle_step_stopped o wait _ now e hstop, ?_, hone post,
      hex _, ?_⟩
    · rw [hone, hone post]
    · rw [hone, hone post]
  · intro o wait s pre post t1 t2
    have hstop : (Debounce.exec o wait s (pre ++ [(t1, .done)])).running = false := by
      rw [debounce_exec_append]
      exact debounce_done_stops o wait _ t1
    have hone : ∀ fs, Debounce.log o wait s (pre ++ (t1, .done) :: fs)
        = Debounce.log o wait s (pre ++ [(t1, .done)]) := by
      intro fs
      have : pre ++ (t1, DebounceEvent.done) :: fs = (pre ++ [(t1, .done)]) ++ fs := by simp
      rw [this, debounce_log_append, debounce_log_stopped o wait _ fs hstop, List.append_nil]
    have hex : ∀ fs, Debounce.exec o wait s (pre ++ (t1, .done) :: fs)
        = Debounce.exec o wait s (pre ++ [(t1, .done)]) := by
      intro fs
      have : pre ++ (t1, DebounceEvent.done) :: fs = (pre ++ [(t1, .done)]) ++ fs := by simp
      rw [this, debounce_exec_append, debounce_exec_stopped o wait _ fs hstop]
    refine ⟨hstop, fun now e => debounce_step_stopped o wait _ now e hstop, ?_, hone post,
      hex _, ?_⟩
    · rw [hone, hone post]
    · rw [hone, hone post]

end Gobounce
